import Mathlib

/-!
Shallow embedding of the core of the rust-ray-tracer repository.

Machine floats (f64) are modelled by exact rationals. The two
transcendental primitives the embedded code uses, square root and
power, are modelled by computable functions that are exact on the
inputs the embedded scenes produce (perfect squares, natural-number
exponents) and return a junk value of 0 elsewhere.

Fallible Rust code (anyhow Result) is modelled with Except String;
Rust Option is modelled with Option.
-/

namespace RT

/-- src/utils/float_equals.rs: the global comparison tolerance. -/
def EPSILON : ℚ := 2 / 10000

/-- src/utils/float_equals.rs: float_equals compares within EPSILON. -/
def float_equals (a b : ℚ) : Bool := decide (|a - b| < EPSILON)

/-- The exact value of f64::MAX, the sentinel used by hit. -/
def f64MAX : ℚ := 2 ^ 1024 - 2 ^ 971

/-- Model of f64::sqrt. Exact when the argument is the square of a
rational; returns 0 on negative input or irrational roots (the claims
below only ever evaluate it on exact squares). -/
def sqrtQ (q : ℚ) : ℚ :=
  if q.num < 0 then 0
  else
    let n := q.num.toNat
    let d := q.den
    let sn := Nat.sqrt n
    let sd := Nat.sqrt d
    if sn * sn = n ∧ sd * sd = d then (sn : ℚ) / (sd : ℚ) else 0

/-- Model of f64::powf. Exact when the exponent is a non-negative
integer (the embedded code only exponentiates by material shininess,
200.0); returns 0 otherwise. -/
def powfQ (a b : ℚ) : ℚ :=
  if b.den = 1 ∧ 0 ≤ b.num then a ^ b.num.toNat else 0

/-- src/spatial/identifier.rs: the w-discriminant of a spatial tuple. -/
inductive Identifier where
  | vec
  | point
  | invalid
  deriving DecidableEq, Repr

namespace Identifier

/-- src/spatial/identifier.rs: Identifier::value. -/
def value : Identifier → ℤ
  | .vec => 0
  | .point => 1
  | .invalid => 2

/-- src/spatial/identifier.rs: classify an integer value as an Identifier
(the match arms of the arithmetic impls). -/
def ofValue (n : ℤ) : Identifier :=
  if n = 0 then .vec else if n = 1 then .point else .invalid

/-- src/spatial/identifier.rs: From<f64-like> for Identifier. -/
def ofRat (q : ℚ) : Identifier :=
  if q = 0 then .vec else if q = 1 then .point else .invalid

/-- src/spatial/identifier.rs: Add for Identifier. -/
def add (a b : Identifier) : Identifier := ofValue (a.value + b.value)

/-- src/spatial/identifier.rs: Sub for Identifier. -/
def sub (a b : Identifier) : Identifier := ofValue (a.value - b.value)

/-- src/spatial/identifier.rs: Neg for Identifier. -/
def neg (a : Identifier) : Identifier := ofValue (-a.value)

/-- src/spatial/identifier.rs: Mul by a scalar for Identifier. -/
def mulScalar (a : Identifier) (rhs : ℚ) : Identifier := ofRat (rhs * (a.value : ℚ))

/-- src/spatial/identifier.rs: Div by a scalar for Identifier. -/
def divScalar (a : Identifier) (rhs : ℚ) : Identifier := ofRat ((a.value : ℚ) / rhs)

end Identifier

/-- src/spatial/tuple.rs: a spatial tuple (point, vector or invalid). -/
structure Tuple where
  x : ℚ
  y : ℚ
  z : ℚ
  w : Identifier
  deriving DecidableEq, Repr

namespace Tuple

/-- src/spatial/tuple.rs: Tuple::point. -/
def point (x y z : ℚ) : Tuple := ⟨x, y, z, .point⟩

/-- src/spatial/tuple.rs: Tuple::vector. -/
def vector (x y z : ℚ) : Tuple := ⟨x, y, z, .vec⟩

/-- src/spatial/tuple.rs: Tuple::is_a_point. -/
def is_a_point (t : Tuple) : Bool := t.w = Identifier.point

/-- src/spatial/tuple.rs: Tuple::is_a_vector. -/
def is_a_vector (t : Tuple) : Bool := t.w = Identifier.vec

/-- src/spatial/tuple.rs: Tuple::get_w (the numeric w value). -/
def get_w (t : Tuple) : ℚ := (t.w.value : ℚ)

/-- src/spatial/tuple.rs: Add for Tuple. -/
def add (a b : Tuple) : Tuple :=
  ⟨a.x + b.x, a.y + b.y, a.z + b.z, a.w.add b.w⟩

/-- src/spatial/tuple.rs: Sub for Tuple. -/
def sub (a b : Tuple) : Tuple :=
  ⟨a.x - b.x, a.y - b.y, a.z - b.z, a.w.sub b.w⟩

/-- src/spatial/tuple.rs: Neg for Tuple. -/
def neg (a : Tuple) : Tuple := ⟨-a.x, -a.y, -a.z, a.w.neg⟩

/-- src/spatial/tuple.rs: Mul by a scalar for Tuple. -/
def mulScalar (a : Tuple) (rhs : ℚ) : Tuple :=
  ⟨a.x * rhs, a.y * rhs, a.z * rhs, a.w.mulScalar rhs⟩

/-- src/spatial/tuple.rs: Div by a scalar for Tuple. -/
def divScalar (a : Tuple) (rhs : ℚ) : Tuple :=
  ⟨a.x / rhs, a.y / rhs, a.z / rhs, a.w.divScalar rhs⟩

/-- src/spatial/tuple.rs: Tuple::dot. -/
def dot (a b : Tuple) : ℚ :=
  a.x * b.x + a.y * b.y + a.z * b.z + ((a.w.value * b.w.value : ℤ) : ℚ)

/-- src/spatial/tuple.rs: Tuple::cross. -/
def cross (a b : Tuple) : Tuple :=
  vector (a.y * b.z - a.z * b.y) (a.z * b.x - a.x * b.z) (a.x * b.y - a.y * b.x)

/-- src/spatial/tuple.rs: Tuple::magnitude. -/
def magnitude (a : Tuple) : ℚ :=
  sqrtQ (a.x ^ 2 + a.y ^ 2 + a.z ^ 2 + ((a.w.value : ℚ)) ^ 2)

/-- src/spatial/tuple.rs: Tuple::normalize. -/
def normalize (a : Tuple) : Tuple := a.divScalar a.magnitude

/-- src/spatial/tuple.rs: Tuple::convert_to_vector (as_vector). -/
def convert_to_vector (a : Tuple) : Tuple := vector a.x a.y a.z

/-- src/spatial/tuple.rs: PartialEq for Tuple (epsilon on coordinates,
exact on the discriminant). -/
def approxEq (a b : Tuple) : Bool :=
  float_equals a.x b.x && float_equals a.y b.y && float_equals a.z b.z &&
    decide (a.w = b.w)

end Tuple

/-- src/color/color.rs: an RGB color. -/
structure Color where
  red : ℚ
  green : ℚ
  blue : ℚ
  deriving DecidableEq, Repr

namespace Color

/-- src/color/color.rs: Color::black (the Default color). -/
def black : Color := ⟨0, 0, 0⟩

/-- src/color/color.rs: Color::red. -/
def redC : Color := ⟨1, 0, 0⟩

/-- src/color/color.rs: Color::white is Color::new(1,1,1). -/
def white : Color := ⟨1, 1, 1⟩

/-- src/color/color.rs: Add for Color. -/
def add (a b : Color) : Color := ⟨a.red + b.red, a.green + b.green, a.blue + b.blue⟩

/-- src/color/color.rs: Mul of two colors (Hadamard product). -/
def mul (a b : Color) : Color := ⟨a.red * b.red, a.green * b.green, a.blue * b.blue⟩

/-- src/color/color.rs: Mul of a color by a scalar. -/
def mulScalar (a : Color) (s : ℚ) : Color := ⟨a.red * s, a.green * s, a.blue * s⟩

end Color

/-- src/matrix/matrix.rs: an M x N matrix of f64 values, modelled as a
Mathlib matrix over the rationals. -/
abbrev Mat (m n : ℕ) := Matrix (Fin m) (Fin n) ℚ

/-- src/matrix/matrix.rs: the all-zero Default matrix. -/
def matZero (m n : ℕ) : Mat m n := fun _ _ => 0

/-- src/matrix/matrix.rs: Matrix::identity (diagonal ones). -/
def identity4 : Mat 4 4 := fun i j => if i = j then 1 else 0

/-- src/matrix/matrix.rs: Matrix::multiply; the entry at (i, j) is the
dot product of row i of the left factor with column j of the right
factor (the source accumulates the same four products in its k-loop). -/
def multiply {m n p : ℕ} (a : Mat m n) (b : Mat n p) : Mat m p :=
  fun i j => ∑ k, a i k * b k j

/-- src/matrix/matrix.rs: Matrix::transpose. -/
def transposeM {m n : ℕ} (a : Mat m n) : Mat n m := fun i j => a j i

/-- src/matrix/matrix.rs: Matrix::submatrix deleting one row and one
column; the source's index bookkeeping (target row i for i below the
deleted row, i - 1 above it) is Fin.succAbove. -/
def submatrixM {n : ℕ} (a : Mat (n + 1) (n + 1)) (row col : Fin (n + 1)) : Mat n n :=
  fun i j => a (row.succAbove i) (col.succAbove j)

/-- src/matrix/matrix.rs: determinant_2x2. -/
def determinant_2x2 (m : Mat 2 2) : ℚ :=
  m 0 0 * m 1 1 - m 0 1 * m 1 0

/-- src/matrix/matrix.rs: minor_3x3. -/
def minor_3x3 (m : Mat 3 3) (row col : Fin 3) : ℚ :=
  determinant_2x2 (submatrixM m row col)

/-- src/matrix/matrix.rs: cofactor_3x3. -/
def cofactor_3x3 (m : Mat 3 3) (row col : Fin 3) : ℚ :=
  if (row.val + col.val) % 2 = 0 then minor_3x3 m row col else -minor_3x3 m row col

/-- src/matrix/matrix.rs: determinant_3x3 (first-row cofactor expansion). -/
def determinant_3x3 (m : Mat 3 3) : ℚ :=
  m 0 0 * cofactor_3x3 m 0 0 + m 0 1 * cofactor_3x3 m 0 1 + m 0 2 * cofactor_3x3 m 0 2

/-- src/matrix/matrix.rs: minor_4x4. -/
def minor_4x4 (m : Mat 4 4) (row col : Fin 4) : ℚ :=
  determinant_3x3 (submatrixM m row col)

/-- src/matrix/matrix.rs: cofactor_4x4. -/
def cofactor_4x4 (m : Mat 4 4) (row col : Fin 4) : ℚ :=
  if (row.val + col.val) % 2 = 0 then minor_4x4 m row col else -minor_4x4 m row col

/-- src/matrix/matrix.rs: determinant_4x4 (first-row cofactor expansion). -/
def determinant_4x4 (m : Mat 4 4) : ℚ :=
  m 0 0 * cofactor_4x4 m 0 0 + m 0 1 * cofactor_4x4 m 0 1 +
    m 0 2 * cofactor_4x4 m 0 2 + m 0 3 * cofactor_4x4 m 0 3

/-- src/matrix/matrix.rs: is_invertible_4x4 tests the determinant
against exactly 0.0. -/
def is_invertible_4x4 (m : Mat 4 4) : Bool := decide (determinant_4x4 m ≠ 0)

/-- src/matrix/matrix.rs: the matrix of inverse entries written by the
inverse_4x4 loop: inverse[col][row] = cofactor(row, col) / det. -/
def inverseEntries (m : Mat 4 4) : Mat 4 4 :=
  fun col row => cofactor_4x4 m row col / determinant_4x4 m

/-- src/matrix/matrix.rs: inverse_4x4; an error when the matrix is not
invertible, otherwise the cofactor-transpose divided by the determinant. -/
def inverse_4x4 (m : Mat 4 4) : Except String (Mat 4 4) :=
  if is_invertible_4x4 m then .ok (inverseEntries m)
  else .error "Matrix is not invertible"

/-- src/matrix/matrix.rs: PartialEq for Matrix (float_equals on every
entry). -/
def matApproxEq {m n : ℕ} (a b : Mat m n) : Bool :=
  decide (∀ i j, float_equals (a i j) (b i j) = true)

/-- src/matrix/matrix.rs: Mul of a 4x4 matrix with a Tuple: the tuple
becomes a 4x1 column (w through Tuple::get_w), is multiplied, and the
result is rebuilt with From, which re-derives the discriminant from the
numeric w value. -/
def mulTuple (m : Mat 4 4) (t : Tuple) : Tuple :=
  let col : Fin 4 → ℚ := fun i =>
    match i with
    | 0 => t.x
    | 1 => t.y
    | 2 => t.z
    | 3 => t.get_w
  let res : Fin 4 → ℚ := fun i => ∑ k, m i k * col k
  ⟨res 0, res 1, res 2, Identifier.ofRat (res 3)⟩

/-- src/matrix/transformations.rs: translation. -/
def translation (x y z : ℚ) : Mat 4 4 :=
  Matrix.of ![![1, 0, 0, x], ![0, 1, 0, y], ![0, 0, 1, z], ![0, 0, 0, 1]]

/-- src/matrix/transformations.rs: scaling. -/
def scaling (x y z : ℚ) : Mat 4 4 :=
  Matrix.of ![![x, 0, 0, 0], ![0, y, 0, 0], ![0, 0, z, 0], ![0, 0, 0, 1]]

/-- src/patterns/solid.rs: a solid color pattern. -/
structure Solid where
  color : Color
  transform_matrix : Mat 4 4

/-- src/patterns/striped.rs: a two-color pattern striped along x. -/
structure Striped where
  a : Color
  b : Color
  transform_matrix : Mat 4 4

/-- src/patterns/mod.rs: the closed enum of pattern variants. -/
inductive PatternType where
  | solid (s : Solid)
  | striped (s : Striped)

namespace PatternType

/-- src/patterns/mod.rs: Transformable::get_transform for PatternType. -/
def get_transform : PatternType → Mat 4 4
  | .solid s => s.transform_matrix
  | .striped s => s.transform_matrix

/-- src/patterns/{solid,striped}.rs: Pattern::pattern_at. The striped
arm is floor(x) mod 2 (the source compares the remainder with 0.0, so
the sign convention of the remainder is immaterial). -/
def pattern_at : PatternType → Tuple → Color
  | .solid s, _ => s.color
  | .striped s, p => if (Rat.floor p.x) % 2 = 0 then s.a else s.b

end PatternType

/-- Modelled from the spec: the Material record used by the shading
pipeline (the version of src/lights/material.rs with reflective,
transparency and refractive_index is referenced by src/world/mod.rs and
src/intersections/operations.rs but its definition is not under src/).
Fields per the spec: ambient/diffuse/specular/shininess scalars,
reflective and transparency coefficients, a refractive index and a
Pattern reference. -/
structure Material where
  pattern : PatternType
  ambient : ℚ
  diffuse : ℚ
  specular : ℚ
  shininess : ℚ
  reflective : ℚ
  transparency : ℚ
  refractive_index : ℚ

namespace Material

/-- src/lights/material.rs: the default material (white surface,
ambient 0.1, diffuse 0.9, specular 0.9, shininess 200; the spec gives
reflective 0, transparency 0 and refractive index 1.0 as the
non-reflective, opaque defaults). -/
def default : Material :=
  { pattern := .solid ⟨Color.white, identity4⟩
    ambient := 1/10, diffuse := 9/10, specular := 9/10, shininess := 200
    reflective := 0, transparency := 0, refractive_index := 1 }

/-- Modelled from the spec: the material surface color consumed by
src/lights/light.rs lighting (Material::get_color); the solid pattern's
color, and the first stripe color for a striped pattern. -/
def get_color (m : Material) : Color :=
  match m.pattern with
  | .solid s => s.color
  | .striped s => s.a

/-- src/lights/material.rs: PartialEq for Material compares each scalar
with float_equals (the pattern is compared exactly). -/
def approxEq (a b : Material) : Bool :=
  float_equals a.ambient b.ambient && float_equals a.diffuse b.diffuse &&
    float_equals a.specular b.specular && float_equals a.shininess b.shininess

end Material

/-- src/shapes/sphere.rs: a unit sphere at the origin carrying a
uniqueness token (Uuid, modelled as ℕ), a transform and a material. -/
structure Sphere where
  uid : ℕ
  transform_matrix : Mat 4 4
  material : Material

/-- src/shapes/plane.rs: the xz-plane through the origin with a
uniqueness token, a transform and a material. -/
structure Plane where
  uid : ℕ
  transform_matrix : Mat 4 4
  material : Material

/-- src/shapes/mod.rs: the closed enum of shape variants. -/
inductive Shape where
  | sphere (s : Sphere)
  | plane (p : Plane)

namespace Shape

/-- src/shapes/mod.rs: Transformable::get_transform for Shape. -/
def get_transform : Shape → Mat 4 4
  | .sphere s => s.transform_matrix
  | .plane p => p.transform_matrix

/-- src/shapes/mod.rs: Shape::get_material. -/
def get_material : Shape → Material
  | .sphere s => s.material
  | .plane p => p.material

/-- src/shapes/sphere.rs and src/shapes/mod.rs: PartialEq for Shape.
Spheres compare by their uniqueness token ONLY (impl PartialEq for
Sphere compares _id); planes use the derived PartialEq (token, then
epsilon-compared transform, then material). -/
def beq : Shape → Shape → Bool
  | .sphere a, .sphere b => a.uid = b.uid
  | .plane a, .plane b =>
    decide (a.uid = b.uid) && matApproxEq a.transform_matrix b.transform_matrix &&
      Material.approxEq a.material b.material
  | _, _ => false

end Shape

/-- src/intersections/ray.rs: a ray with origin and direction. -/
structure Ray where
  origin : Tuple
  direction : Tuple

namespace Ray

/-- src/intersections/ray.rs: Ray::validate. -/
def validate (origin direction : Tuple) : Bool :=
  origin.is_a_point && direction.is_a_vector

/-- src/intersections/ray.rs: Ray::new; errors unless the origin is a
point and the direction is a vector. -/
def new (origin direction : Tuple) : Except String Ray :=
  if validate origin direction then .ok ⟨origin, direction⟩
  else .error "The origin tuple must be a point, and the direction tuple must be a vector"

/-- src/intersections/ray.rs: Ray::position. -/
def position (r : Ray) (t : ℚ) : Tuple :=
  r.origin.add (r.direction.mulScalar t)

end Ray

/-- src/intersections/mod.rs: an intersection (t value and object). -/
structure Intersection where
  t : ℚ
  object : Shape

/-- src/intersections/mod.rs: the derived PartialEq for Intersection
(exact equality on t, Shape PartialEq on the object). -/
def Intersection.beq (a b : Intersection) : Bool :=
  decide (a.t = b.t) && a.object.beq b.object

/-- src/intersections/operations.rs: transform_ray multiplies origin and
direction by the matrix and rebuilds the ray through Ray::new. -/
def transform_ray (r : Ray) (m : Mat 4 4) : Except String Ray :=
  Ray.new (mulTuple m r.origin) (mulTuple m r.direction)

/-- src/intersections/operations.rs: reflect. -/
def reflect (inbound normal : Tuple) : Tuple :=
  inbound.sub (normal.mulScalar (2 * normal.dot inbound))

/-- src/intersections/operations.rs: the loop body of hit; carries the
running best intersection and the current minimum (seeded with
f64::MAX), and takes an intersection exactly when t < current_min and
t > 0. -/
def hitGo : List Intersection → Option Intersection → ℚ → Option Intersection
  | [], res, _ => res
  | i :: rest, res, cur =>
    if i.t < cur ∧ 0 < i.t then hitGo rest (some i) i.t else hitGo rest res cur

/-- src/intersections/operations.rs: hit. -/
def hit (xs : List Intersection) : Option Intersection :=
  hitGo xs none f64MAX

/-- src/intersections/operations.rs: the toggle step of calculate_n1_n2:
if the stack contains the object (Shape PartialEq), retain every element
that differs from it; otherwise push the object on top (the end). -/
def toggleObject (stack : List Shape) (s : Shape) : List Shape :=
  if stack.any (fun o => o.beq s) then stack.filter (fun o => !(o.beq s)) else stack ++ [s]

/-- src/intersections/operations.rs: the n1 or n2 read of
calculate_n1_n2: 1.0 for an empty stack, else the refractive index of
the last (top) element. -/
def stackIndex (stack : List Shape) : ℚ :=
  match stack.getLast? with
  | none => 1
  | some s => s.get_material.refractive_index

/-- src/intersections/operations.rs: the loop of calculate_n1_n2. Until
the current hit is found (Intersection PartialEq), each intersection
toggles its object on the stack; at the hit, n1 is read before the
toggle and n2 after it, and the loop breaks. (0, 0) survives when the
hit never occurs, as in the source where n1 and n2 start at 0.0. -/
def n1n2Go (x : Intersection) : List Intersection → List Shape → ℚ × ℚ
  | [], _ => (0, 0)
  | i :: rest, stack =>
    if i.beq x then (stackIndex stack, stackIndex (toggleObject stack i.object))
    else n1n2Go x rest (toggleObject stack i.object)

/-- src/intersections/operations.rs: calculate_n1_n2. -/
def calculate_n1_n2 (xs : List Intersection) (x : Intersection) : ℚ × ℚ :=
  n1n2Go x xs []

/-- Modelled from the spec: Sphere::local_intersect, the geometry-
specific part of src/shapes/sphere.rs Sphere::intersect (only the
composed method is under src/): the quadratic in t against the unit
sphere at the origin; no hits for a negative discriminant, otherwise
the two roots (equal at a tangent). -/
def sphereLocalIntersect (s : Sphere) (r : Ray) : List Intersection :=
  let sphere_to_ray := r.origin.sub (Tuple.point 0 0 0)
  let a := r.direction.dot r.direction
  let b := 2 * r.direction.dot sphere_to_ray
  let c := sphere_to_ray.dot sphere_to_ray - 1
  let discriminant := b * b - 4 * a * c
  if discriminant < 0 then []
  else
    let t1 := (-b - sqrtQ discriminant) / (2 * a)
    let t2 := (-b + sqrtQ discriminant) / (2 * a)
    [⟨t1, .sphere s⟩, ⟨t2, .sphere s⟩]

/-- src/shapes/sphere.rs: Sphere::intersect (the inherent method):
transform the ray by the inverse of the sphere's transform, then run
the quadratic against the unit sphere. -/
def Sphere.intersect (s : Sphere) (r : Ray) : Except String (List Intersection) := do
  let inv ← inverse_4x4 s.transform_matrix
  let transformed_ray ← transform_ray r inv
  let sphere_to_ray := transformed_ray.origin.sub (Tuple.point 0 0 0)
  let a := transformed_ray.direction.dot transformed_ray.direction
  let b := 2 * transformed_ray.direction.dot sphere_to_ray
  let c := sphere_to_ray.dot sphere_to_ray - 1
  let discriminant := b * b - 4 * a * c
  if discriminant < 0 then pure []
  else
    let t1 := (-b - sqrtQ discriminant) / (2 * a)
    let t2 := (-b + sqrtQ discriminant) / (2 * a)
    pure [⟨t1, .sphere s⟩, ⟨t2, .sphere s⟩]

/-- src/shapes/plane.rs: Plane::local_intersect; no hit when the ray is
parallel to the xz-plane within EPSILON, otherwise t = -origin.y /
direction.y. -/
def planeLocalIntersect (p : Plane) (r : Ray) : List Intersection :=
  if |r.direction.y| < EPSILON then []
  else [⟨-r.origin.y / r.direction.y, .plane p⟩]

namespace Shape

/-- src/shapes/mod.rs: Intersect::local_intersect dispatch for Shape. -/
def local_intersect (sh : Shape) (r : Ray) : Except String (List Intersection) :=
  match sh with
  | .sphere s => .ok (sphereLocalIntersect s r)
  | .plane p => .ok (planeLocalIntersect p r)

/-- src/shapes/mod.rs: the Intersect trait's intersect: transform the
ray with the inverse of the shape's transform and intersect locally. -/
def intersect (sh : Shape) (r : Ray) : Except String (List Intersection) := do
  let inv ← inverse_4x4 sh.get_transform
  let transformed_ray ← transform_ray r inv
  sh.local_intersect transformed_ray

/-- src/shapes/{sphere,plane}.rs: local_normal_at per variant. The
sphere arm (point minus the origin, giving the local radial vector) is
modelled from the spec since only the composed Sphere::normal_at is
under src/; the plane arm is the constant (0,1,0) of
Plane::local_normal_at. -/
def local_normal_at (sh : Shape) (p : Tuple) : Except String Tuple :=
  match sh with
  | .sphere _ => .ok (p.sub (Tuple.point 0 0 0))
  | .plane _ => .ok (Tuple.vector 0 1 0)

/-- src/shapes/mod.rs: the SurfaceNormal trait's normal_at: map the
point to object space, take the local normal, push it back through the
transposed inverse, force vector semantics and normalize. -/
def normal_at (sh : Shape) (p : Tuple) : Except String Tuple := do
  let inv ← inverse_4x4 sh.get_transform
  let local_point := mulTuple inv p
  let local_normal ← sh.local_normal_at local_point
  let invT ← inverse_4x4 sh.get_transform
  let world_normal := mulTuple (transposeM invT) local_normal
  pure world_normal.convert_to_vector.normalize

end Shape

/-- src/intersections/mod.rs: the Computations record prepared per hit. -/
structure Computations where
  t : ℚ
  object : Shape
  point : Tuple
  eyev : Tuple
  normalv : Tuple
  reflectv : Tuple
  inside : Bool
  over_point : Tuple
  under_point : Tuple
  n1 : ℚ
  n2 : ℚ

namespace Computations

/-- src/intersections/mod.rs: Computations::prepare. -/
def prepare (x : Intersection) (r : Ray) (xs : List Intersection) :
    Except String Computations := do
  let t := x.t
  let object := x.object
  let point := r.position t
  let eyev := r.direction.neg
  let normalv0 ← object.normal_at point
  let inside := decide (normalv0.dot eyev < 0)
  let normalv := if normalv0.dot eyev < 0 then normalv0.neg else normalv0
  let over_point := point.add (normalv.mulScalar EPSILON)
  let under_point := point.sub (normalv.mulScalar EPSILON)
  let reflectv := reflect r.direction normalv
  let n_vals := calculate_n1_n2 xs x
  pure { t, object, point, eyev, normalv, reflectv, inside, over_point, under_point,
         n1 := n_vals.1, n2 := n_vals.2 }

end Computations

/-- src/lights/light.rs: a point light with an intensity and position. -/
structure PointLight where
  intensity : Color
  position : Tuple

/-- src/lights/light.rs: PointLight::new rejects a position that is a
vector (and only that). -/
def PointLight.new (position : Tuple) (intensity : Color) : Except String PointLight :=
  if position.is_a_vector then .error "position must be a Point not a Vector"
  else .ok ⟨intensity, position⟩

/-- src/lights/light.rs: the Phong lighting function. The ambient term
is computed unconditionally; diffuse and specular are computed when the
light is on the normal side; when in_shadow, only the ambient term is
returned. -/
def lighting (material : Material) (point_light : PointLight) (position eyev normalv : Tuple)
    (in_shadow : Bool) : Color :=
  let effective_color := material.get_color.mul point_light.intensity
  let lightv := (point_light.position.sub position).normalize
  let ambient := effective_color.mulScalar material.ambient
  let light_dot_normal := lightv.dot normalv
  let diffuse :=
    if 0 ≤ light_dot_normal then
      (effective_color.mulScalar material.diffuse).mulScalar light_dot_normal
    else Color.black
  let specular :=
    if 0 ≤ light_dot_normal then
      let reflectv := reflect (lightv.mulScalar (-1)) normalv
      let reflect_dot_eye := reflectv.dot eyev
      if 0 ≤ reflect_dot_eye then
        let factor := powfQ reflect_dot_eye material.shininess
        (point_light.intensity.mulScalar material.specular).mulScalar factor
      else Color.black
    else Color.black
  if in_shadow then ambient else (ambient.add diffuse).add specular

/-- src/patterns/mod.rs: Pattern::pattern_at_object; the world point is
mapped through the shape's inverse transform and then the pattern's
inverse transform before sampling (Solid overrides this to return its
color directly, which agrees with the composition since its pattern_at
ignores the point). -/
def pattern_at_object (pat : PatternType) (object : Shape) (world_point : Tuple) :
    Except String Color := do
  let objInv ← inverse_4x4 object.get_transform
  let object_point := mulTuple objInv world_point
  let patInv ← inverse_4x4 pat.get_transform
  let pattern_point := mulTuple patInv object_point
  pure (pat.pattern_at pattern_point)

/-- Modelled from the spec: the shape-aware lighting used by
World::shade_hit_helper (the version of src/lights/light.rs taking the
shape is not under src/): the Phong model of src/lights/light.rs with
the surface color sampled through pattern_at_object, which is why it is
fallible. -/
def lightingAtObject (material : Material) (object : Shape) (point_light : PointLight)
    (position eyev normalv : Tuple) (in_shadow : Bool) : Except String Color := do
  let surface_color ← pattern_at_object material.pattern object position
  let effective_color := surface_color.mul point_light.intensity
  let lightv := (point_light.position.sub position).normalize
  let ambient := effective_color.mulScalar material.ambient
  let light_dot_normal := lightv.dot normalv
  let diffuse :=
    if 0 ≤ light_dot_normal then
      (effective_color.mulScalar material.diffuse).mulScalar light_dot_normal
    else Color.black
  let specular :=
    if 0 ≤ light_dot_normal then
      let reflectv := reflect (lightv.mulScalar (-1)) normalv
      let reflect_dot_eye := reflectv.dot eyev
      if 0 ≤ reflect_dot_eye then
        let factor := powfQ reflect_dot_eye material.shininess
        (point_light.intensity.mulScalar material.specular).mulScalar factor
      else Color.black
    else Color.black
  pure (if in_shadow then ambient else (ambient.add diffuse).add specular)

/-- src/world/mod.rs: a world with an optional light and its objects. -/
structure World where
  light : Option PointLight
  objects : List Shape

namespace World

/-- src/world/mod.rs: World::intersect_world collects every object's
intersections and sorts them ascending by t (Vec::sort_by is a stable
sort; it is modelled by insertion sort, which is also stable). -/
def intersect_world (w : World) (r : Ray) : Except String (List Intersection) := do
  let gathered ← w.objects.foldlM (fun (acc : List Intersection) o => do
    let xs ← o.intersect r
    pure (acc ++ xs)) []
  pure (gathered.insertionSort (fun a b => a.t ≤ b.t))

/-- src/world/mod.rs: World::is_shadowed: cast a ray from the point
toward the light; the point is occluded when the nearest hit is closer
than the light. -/
def is_shadowed (w : World) (point : Tuple) : Except String Bool :=
  match w.light with
  | none => .ok false
  | some light => do
    let v := light.position.sub point
    let distance := v.magnitude
    let direction := v.normalize
    let r ← Ray.new point direction
    let xs ← w.intersect_world r
    match hit xs with
    | some h => pure (decide (h.t < distance))
    | none => pure false

end World

/-!
The mutually recursive reflection/refraction pipeline of
src/world/mod.rs (color_at_helper -> shade_hit_helper ->
reflected_color_helper / refracted_color -> color_at_helper with
remaining_iterations - 1) is embedded with a fuel parameter in the
standard way: each re-entry into color_at consumes one unit of fuel and
out-of-fuel is the Option layer's none. The non-recursive bodies take
the recursive entry point as an argument, so each matches its source
function one to one; claim C4 proves that fuel bounded by the remaining
depth always suffices, which is the termination argument.
-/

/-- src/world/mod.rs: the TIR test value of World::refracted_color:
sin^2 of the refraction angle from Snell's law, computed from n1/n2 and
the eye-normal cosine. -/
def sin2T (comps : Computations) : ℚ :=
  let n_ratio := comps.n1 / comps.n2
  let cos_i := comps.eyev.dot comps.normalv
  n_ratio * n_ratio * (1 - cos_i * cos_i)

/-- src/world/mod.rs: World::reflected_color_helper with the recursive
color_at passed as an argument. Black at depth 0 or for a
non-reflective material; otherwise the reflection ray from over_point
along reflectv, resolved one level deeper and scaled by reflective. -/
def reflectedStep (_w : World) (comps : Computations) (rem : ℕ)
    (recur : Ray → ℕ → Option (Except String Color)) : Option (Except String Color) :=
  if rem = 0 ∨ comps.object.get_material.reflective = 0 then some (.ok Color.black)
  else
    match Ray.new comps.over_point comps.reflectv with
    | .error e => some (.error e)
    | .ok reflect_ray =>
      match recur reflect_ray (rem - 1) with
      | none => none
      | some (.error e) => some (.error e)
      | some (.ok color) =>
        some (.ok (color.mulScalar comps.object.get_material.reflective))

/-- src/world/mod.rs: World::refracted_color with the recursive
color_at passed as an argument. Black at depth 0, for a transparent
coefficient of 0, or under total internal reflection (sin2_t > 1);
otherwise the refraction ray from under_point, resolved one level
deeper and scaled by transparency. -/
def refractedStep (_w : World) (comps : Computations) (rem : ℕ)
    (recur : Ray → ℕ → Option (Except String Color)) : Option (Except String Color) :=
  if rem = 0 ∨ comps.object.get_material.transparency = 0 then some (.ok Color.black)
  else
    let n_ratio := comps.n1 / comps.n2
    let cos_i := comps.eyev.dot comps.normalv
    let sin2_t := n_ratio * n_ratio * (1 - cos_i * cos_i)
    if 1 < sin2_t then some (.ok Color.black)
    else
      let cos_t := sqrtQ (1 - sin2_t)
      let direction :=
        (comps.normalv.mulScalar (n_ratio * cos_i - cos_t)).sub
          (comps.eyev.mulScalar n_ratio)
      match Ray.new comps.under_point direction with
      | .error e => some (.error e)
      | .ok refracted_ray =>
        match recur refracted_ray (rem - 1) with
        | none => none
        | some (.error e) => some (.error e)
        | some (.ok color) =>
          some (.ok (color.mulScalar comps.object.get_material.transparency))

/-- src/world/mod.rs: World::shade_hit_helper with the recursive
color_at passed as an argument: black without a light, otherwise the
Phong surface term (with the shadow flag from is_shadowed at
over_point) plus the reflected and refracted contributions. -/
def shadeHitStep (w : World) (comps : Computations) (rem : ℕ)
    (recur : Ray → ℕ → Option (Except String Color)) : Option (Except String Color) :=
  match w.light with
  | none => some (.ok Color.black)
  | some light =>
    match w.is_shadowed comps.over_point with
    | .error e => some (.error e)
    | .ok shadowed =>
      match lightingAtObject comps.object.get_material comps.object light comps.point
          comps.eyev comps.normalv shadowed with
      | .error e => some (.error e)
      | .ok surface =>
        match reflectedStep w comps rem recur with
        | none => none
        | some (.error e) => some (.error e)
        | some (.ok reflected) =>
          match refractedStep w comps rem recur with
          | none => none
          | some (.error e) => some (.error e)
          | some (.ok refracted) => some (.ok ((surface.add reflected).add refracted))

/-- src/world/mod.rs: World::color_at_helper, fuel-indexed: intersect
the world, take the hit (black if none), prepare the computations and
shade; recursive re-entries run on one unit less fuel. -/
def colorAtFuel : ℕ → World → Ray → ℕ → Option (Except String Color)
  | 0, _, _, _ => none
  | fuel + 1, w, r, rem =>
    match w.intersect_world r with
    | .error e => some (.error e)
    | .ok xs =>
      match hit xs with
      | none => some (.ok Color.black)
      | some h =>
        match Computations.prepare h r xs with
        | .error e => some (.error e)
        | .ok comps => shadeHitStep w comps rem (colorAtFuel fuel w)

namespace World

/-- src/world/mod.rs: World::color_at_helper (rem + 1 units of fuel
always suffice; see the C4 theorem). -/
def color_at_helper (w : World) (r : Ray) (rem : ℕ) : Except String Color :=
  (colorAtFuel (rem + 1) w r rem).getD (.error "fuel exhausted")

/-- src/world/mod.rs: World::color_at uses the default depth 5. -/
def color_at (w : World) (r : Ray) : Except String Color :=
  w.color_at_helper r 5

/-- src/world/mod.rs: World::reflected_color_helper as called with an
explicit remaining depth. -/
def reflected_color_helper (w : World) (comps : Computations) (rem : ℕ) :
    Except String Color :=
  (reflectedStep w comps rem (fun r k => colorAtFuel (k + 1) w r k)).getD
    (.error "fuel exhausted")

/-- src/world/mod.rs: World::refracted_color as called with an explicit
remaining depth. -/
def refracted_color (w : World) (comps : Computations) (rem : ℕ) :
    Except String Color :=
  (refractedStep w comps rem (fun r k => colorAtFuel (k + 1) w r k)).getD
    (.error "fuel exhausted")

end World

/-- src/camera/mod.rs: the Camera record (field_of_view is carried but
the render path reads only the derived pixel geometry and the
transform). -/
structure Camera where
  hsize : ℕ
  vsize : ℕ
  field_of_view : ℚ
  transform : Mat 4 4
  pixel_size : ℚ
  half_width : ℚ
  half_height : ℚ

/-- src/canvas/canvas.rs: a canvas of width * height pixels stored
row-major, initialized to the default color (black). -/
structure Canvas where
  inner : List Color
  width : ℕ
  height : ℕ

namespace Canvas

/-- src/canvas/canvas.rs: Canvas::new fills with Color::default(). -/
def new (width height : ℕ) : Canvas :=
  ⟨List.replicate (width * height) Color.black, width, height⟩

/-- src/canvas/canvas.rs: Canvas::is_out_of_bounds. -/
def is_out_of_bounds (c : Canvas) (x y : ℕ) : Bool :=
  !(decide (x < c.width)) || !(decide (y < c.height))

/-- src/canvas/canvas.rs: Canvas::map_index (row-major). -/
def map_index (c : Canvas) (x y : ℕ) : ℕ := y * c.width + x

/-- src/canvas/canvas.rs: Canvas::pixel_at. -/
def pixel_at (c : Canvas) (x y : ℕ) : Except String Color :=
  if c.is_out_of_bounds x y then .error "index out-of-bounds"
  else .ok (c.inner.getD (c.map_index x y) Color.black)

/-- src/canvas/canvas.rs: Canvas::write_pixel. -/
def write_pixel (c : Canvas) (x y : ℕ) (color : Color) : Except String Canvas :=
  if c.is_out_of_bounds x y then .error "index out-of-bounds"
  else .ok ⟨c.inner.set (c.map_index x y) color, c.width, c.height⟩

end Canvas

namespace Camera

/-- src/camera/mod.rs: Camera::ray_for_pixel: the pixel center offset
from the canvas edge, mapped through the camera's inverse transform
onto the z = -1 canvas, with the direction normalized. -/
def ray_for_pixel (c : Camera) (px py : ℕ) : Except String Ray := do
  let xoffset := ((px : ℚ) + 1/2) * c.pixel_size
  let yoffset := ((py : ℚ) + 1/2) * c.pixel_size
  let world_x := c.half_width - xoffset
  let world_y := c.half_height - yoffset
  let inv ← inverse_4x4 c.transform
  let pixel := mulTuple inv (Tuple.point world_x world_y (-1))
  let inv2 ← inverse_4x4 c.transform
  let origin := mulTuple inv2 (Tuple.point 0 0 0)
  let direction := (pixel.sub origin).normalize
  Ray.new origin direction

/-- src/camera/mod.rs: Camera::render: the double loop over
y in 0..(vsize - 1) and x in 0..(hsize - 1) (exactly as in the source,
which stops one short of each bound), computing the pixel's ray,
resolving its color and writing it into the canvas. -/
def render (c : Camera) (w : World) : Except String Canvas := do
  let image := Canvas.new c.hsize c.vsize
  (List.range (c.vsize - 1)).foldlM (fun img y =>
    (List.range (c.hsize - 1)).foldlM (fun img x => do
      let ray ← c.ray_for_pixel x y
      let color ← w.color_at ray
      img.write_pixel x y color) img) image

end Camera

/-!
Spec-side definitions for the n1/n2 claim: the replay described by the
spec, with removal from the stack of currently-entered shapes done by
identity (the uniqueness token) rather than by the PartialEq value
comparison the code uses, and with the hit's own shape toggled.
-/

/-- The spec's notion of shape identity: the uniqueness token assigned
at construction, regardless of transform and material values. -/
def sameIdentity : Shape → Shape → Bool
  | .sphere a, .sphere b => a.uid = b.uid
  | .plane a, .plane b => a.uid = b.uid
  | _, _ => false

/-- The spec's stack step: a shape not on the stack is pushed; one
already on the stack is removed by identity. -/
def toggleSpec (stack : List Shape) (s : Shape) : List Shape :=
  if stack.any (fun o => sameIdentity o s) then
    stack.filter (fun o => !(sameIdentity o s))
  else stack ++ [s]

/-- The spec's replay: walk the sorted list up to the hit; n1 is the
refractive index of the stack top just before the hit (1.0 if empty),
n2 the top after toggling the hit's shape (1.0 if empty). -/
def n1n2SpecGo (x : Intersection) : List Intersection → List Shape → ℚ × ℚ
  | [], _ => (0, 0)
  | i :: rest, stack =>
    if i.beq x then (stackIndex stack, stackIndex (toggleSpec stack x.object))
    else n1n2SpecGo x rest (toggleSpec stack i.object)

/-- The spec's n1/n2 derivation for a hit within a sorted list. -/
def calculateN1N2Spec (xs : List Intersection) (x : Intersection) : ℚ × ℚ :=
  n1n2SpecGo x xs []

/-!
Concrete scenes and inputs used by counterexamples and witnesses.
-/

/-- A default sphere (identity transform, default material). -/
def sphereD : Sphere := ⟨0, identity4, Material.default⟩

/-- The default sphere as a Shape. -/
def s0 : Shape := .sphere sphereD

/-- A sphere translated by (5, 0, 0), default material. -/
def sphereT : Sphere := ⟨1, translation 5 0 0, Material.default⟩

/-- The ray with origin (0,0,-5) and direction (0,0,1). -/
def rayC6 : Ray := ⟨Tuple.point 0 0 (-5), Tuple.vector 0 0 1⟩

/-- A 4x4 matrix whose determinant (1/8192, about 1.22e-4) is nonzero
but lies within EPSILON = 2e-4 of zero. -/
def matC7 : Mat 4 4 := scaling (1/8192) 1 1

/-- Glass-like material of refractive index n (transparency 1). -/
def glassMat (n : ℚ) : Material :=
  { Material.default with transparency := 1, refractive_index := n }

/-- Outer glass sphere A (n = 1.5) of the overlapping-spheres scene. -/
def sphereA : Sphere := ⟨10, scaling 2 2 2, glassMat (3/2)⟩

/-- Glass sphere B (n = 2.0) of the overlapping-spheres scene. -/
def sphereB : Sphere := ⟨11, translation 0 0 (1/4), glassMat 2⟩

/-- Glass sphere C (n = 2.5) of the overlapping-spheres scene. -/
def sphereC : Sphere := ⟨12, identity4, glassMat (5/2)⟩

/-- The six ordered intersections of the overlapping glass spheres
scene (the documented n1/n2 test sequence). -/
def xsC2 : List Intersection :=
  [⟨2, .sphere sphereA⟩, ⟨11/4, .sphere sphereB⟩, ⟨13/4, .sphere sphereC⟩,
   ⟨19/4, .sphere sphereB⟩, ⟨21/4, .sphere sphereC⟩, ⟨6, .sphere sphereA⟩]

/-- A single intersection at t = f64::MAX (positive, yet never selected
by hit's strict comparison against the f64::MAX seed). -/
def xsMax : List Intersection := [⟨f64MAX, s0⟩]

/-- A fully reflective default material. -/
def matReflect : Material := { Material.default with reflective := 1 }

/-- The lower fully-reflective plane at y = -1. -/
def lowerP : Plane := ⟨0, translation 0 (-1) 0, matReflect⟩

/-- The upper fully-reflective plane at y = 1. -/
def upperP : Plane := ⟨1, translation 0 1 0, matReflect⟩

/-- Two parallel fully-reflective planes facing each other with a light
between them. -/
def worldC4 : World :=
  ⟨some ⟨Color.white, Tuple.point 0 0 0⟩, [.plane lowerP, .plane upperP]⟩

/-- The ray bouncing vertically between the two planes. -/
def rayC4 : Ray := ⟨Tuple.point 0 0 0, Tuple.vector 0 1 0⟩

/-- An arbitrary Computations record used to witness the depth-0 black
results. -/
def compsW : Computations :=
  ⟨1, s0, Tuple.point 0 0 0, Tuple.vector 0 0 1, Tuple.vector 0 0 1,
    Tuple.vector 0 0 1, false, Tuple.point 0 0 0, Tuple.point 0 0 0, 1, 1⟩

/-- A solid red, purely ambient material (ambient 1, diffuse and
specular 0), so its shaded color is exactly red wherever it is hit. -/
def matRed : Material :=
  { Material.default with
    pattern := PatternType.solid ⟨Color.redC, identity4⟩
    ambient := 1
    diffuse := 0
    specular := 0 }

/-- A unit sphere with the red ambient material, centered at
(4, 4, -7): squarely on the ray of pixel (1, 1) of the camera below,
and missed by the ray of pixel (0, 0). -/
def sphereC9 : Sphere := ⟨0, translation 4 4 (-7), matRed⟩

/-- The render scene: a red sphere on pixel (1,1)'s ray and a light at
the camera origin, so pixel (1,1)'s ray resolves to red while pixel
(0,0)'s ray misses everything and resolves to black. -/
def worldC9 : World :=
  ⟨some ⟨Color.white, Tuple.point 0 0 0⟩, [.sphere sphereC9]⟩

/-- A 2 x 2 camera with identity transform whose pixel geometry
(half_width = half_height = 19/7, pixel_size = 10/7) gives the pixel
centers rational direction vectors of exact unit length. -/
def camC9 : Camera := ⟨2, 2, 0, identity4, 10/7, 19/7, 19/7⟩

/-- The ray of pixel (0, 0) of camC9: through world point (2, 2, -1),
missing the C9 sphere. -/
def rayP00 : Ray := ⟨Tuple.point 0 0 0, Tuple.vector (2/3) (2/3) (-1/3)⟩

/-- The ray of pixel (1, 1) of camC9: through world point (4/7, 4/7, -1),
straight at the center of the C9 sphere. -/
def rayP11 : Ray := ⟨Tuple.point 0 0 0, Tuple.vector (4/9) (4/9) (-7/9)⟩

/-- The Computations record prepared for the t = 8 hit of rayP11 on the
C9 sphere (over/under points displaced by EPSILON along the normal). -/
def compsC9 : Computations :=
  ⟨8, .sphere sphereC9,
    Tuple.point (32/9) (32/9) (-56/9),
    Tuple.vector (-4/9) (-4/9) (7/9),
    Tuple.vector (-4/9) (-4/9) (7/9),
    Tuple.vector (-4/9) (-4/9) (7/9),
    false,
    Tuple.point (13333/3750) (13333/3750) (-93331/15000),
    Tuple.point (40001/11250) (40001/11250) (-280007/45000),
    1, 1⟩

/-- The canvas produced by rendering the C9 scene: all four pixels
black (pixel (0, 0) written black, the rest never touched). -/
def canvasC9 : Canvas := ⟨[Color.black, Color.black, Color.black, Color.black], 2, 2⟩

/-!
Helper lemmas: concrete Fin index arithmetic, evaluation of the square
root and power models, and tuple algebra.
-/

lemma sa4_0_0 : (0 : Fin 4).succAbove 0 = 1 := rfl

lemma sa4_0_1 : (0 : Fin 4).succAbove 1 = 2 := rfl

lemma sa4_0_2 : (0 : Fin 4).succAbove 2 = 3 := rfl

lemma sa4_1_0 : (1 : Fin 4).succAbove 0 = 0 := rfl

lemma sa4_1_1 : (1 : Fin 4).succAbove 1 = 2 := rfl

lemma sa4_1_2 : (1 : Fin 4).succAbove 2 = 3 := rfl

lemma sa4_2_0 : (2 : Fin 4).succAbove 0 = 0 := rfl

lemma sa4_2_1 : (2 : Fin 4).succAbove 1 = 1 := rfl

lemma sa4_2_2 : (2 : Fin 4).succAbove 2 = 3 := rfl

lemma sa4_3_0 : (3 : Fin 4).succAbove 0 = 0 := rfl

lemma sa4_3_1 : (3 : Fin 4).succAbove 1 = 1 := rfl

lemma sa4_3_2 : (3 : Fin 4).succAbove 2 = 2 := rfl

lemma sa3_0_0 : (0 : Fin 3).succAbove 0 = 1 := rfl

lemma sa3_0_1 : (0 : Fin 3).succAbove 1 = 2 := rfl

lemma sa3_1_0 : (1 : Fin 3).succAbove 0 = 0 := rfl

lemma sa3_1_1 : (1 : Fin 3).succAbove 1 = 2 := rfl

lemma sa3_2_0 : (2 : Fin 3).succAbove 0 = 0 := rfl

lemma sa3_2_1 : (2 : Fin 3).succAbove 1 = 1 := rfl

lemma sqrtQ_sq (r : ℚ) (h : 0 ≤ r) : sqrtQ (r ^ 2) = r := by
  have hnum : (r ^ 2).num = r.num * r.num := by rw [pow_two, Rat.mul_self_num]
  have hden : (r ^ 2).den = r.den * r.den := by rw [pow_two, Rat.mul_self_den]
  have hnn : 0 ≤ r.num := Rat.num_nonneg.mpr h
  have hsq : r.num * r.num = ((r.num.natAbs * r.num.natAbs : ℕ) : ℤ) :=
    (Int.natAbs_mul_self).symm
  unfold sqrtQ
  rw [hnum, hden]
  have h1 : ¬ (r.num * r.num < 0) := not_lt.mpr (mul_nonneg hnn hnn)
  rw [if_neg h1]
  have htn : (r.num * r.num).toNat = r.num.natAbs * r.num.natAbs := by
    rw [hsq, Int.toNat_natCast]
  simp only [htn, Nat.sqrt_eq, and_self, if_true]
  have hcast : ((r.num.natAbs : ℚ)) = (r.num : ℚ) := by
    rw [Int.cast_natAbs]
    exact_mod_cast abs_of_nonneg hnn
  rw [hcast]
  exact_mod_cast Rat.num_div_den r

lemma powfQ_nat (a : ℚ) (n : ℕ) : powfQ a (n : ℚ) = a ^ n := by
  unfold powfQ
  rw [if_pos]
  · norm_num
  · constructor
    · exact Rat.den_natCast n
    · simp [Rat.num_natCast]

lemma point_sub_point (a b c d e f : ℚ) :
    (Tuple.point a b c).sub (Tuple.point d e f) = Tuple.vector (a-d) (b-e) (c-f) := rfl

lemma point_add_vector (a b c d e f : ℚ) :
    (Tuple.point a b c).add (Tuple.vector d e f) = Tuple.point (a+d) (b+e) (c+f) := rfl

lemma point_sub_vector (a b c d e f : ℚ) :
    (Tuple.point a b c).sub (Tuple.vector d e f) = Tuple.point (a-d) (b-e) (c-f) := rfl

lemma vector_sub_vector (a b c d e f : ℚ) :
    (Tuple.vector a b c).sub (Tuple.vector d e f) = Tuple.vector (a-d) (b-e) (c-f) := rfl

lemma neg_vector (a b c : ℚ) : (Tuple.vector a b c).neg = Tuple.vector (-a) (-b) (-c) := rfl

lemma vector_mulScalar (a b c s : ℚ) :
    (Tuple.vector a b c).mulScalar s = Tuple.vector (a*s) (b*s) (c*s) := by
  simp [Tuple.mulScalar, Tuple.vector, Identifier.mulScalar, Identifier.ofRat,
    Identifier.value]

lemma vector_divScalar (a b c s : ℚ) :
    (Tuple.vector a b c).divScalar s = Tuple.vector (a/s) (b/s) (c/s) := by
  simp [Tuple.divScalar, Tuple.vector, Identifier.divScalar, Identifier.ofRat,
    Identifier.value]

lemma vector_dot_vector (a b c d e f : ℚ) :
    (Tuple.vector a b c).dot (Tuple.vector d e f) = a*d + b*e + c*f := by
  simp [Tuple.dot, Tuple.vector, Identifier.value]

lemma magnitude_vector (a b c : ℚ) :
    (Tuple.vector a b c).magnitude = sqrtQ (a^2 + b^2 + c^2) := by
  simp [Tuple.magnitude, Tuple.vector, Identifier.value]

lemma normalize_vector (a b c m : ℚ) (hm : sqrtQ (a^2 + b^2 + c^2) = m) :
    (Tuple.vector a b c).normalize = Tuple.vector (a/m) (b/m) (c/m) := by
  rw [Tuple.normalize, magnitude_vector, hm, vector_divScalar]

lemma reflect_vectors (a b c d e f : ℚ) :
    reflect (Tuple.vector a b c) (Tuple.vector d e f) =
      Tuple.vector (a - d * (2*(d*a+e*b+f*c))) (b - e * (2*(d*a+e*b+f*c)))
        (c - f * (2*(d*a+e*b+f*c))) := by
  rw [reflect, vector_dot_vector, vector_mulScalar, vector_sub_vector]

lemma v4_0 : ((0 : Fin 4) : ℕ) = 0 := rfl
lemma v4_1 : ((1 : Fin 4) : ℕ) = 1 := rfl
lemma v4_2 : ((2 : Fin 4) : ℕ) = 2 := rfl
lemma v4_3 : ((3 : Fin 4) : ℕ) = 3 := rfl
lemma v3_0 : ((0 : Fin 3) : ℕ) = 0 := rfl
lemma v3_1 : ((1 : Fin 3) : ℕ) = 1 := rfl
lemma v3_2 : ((2 : Fin 3) : ℕ) = 2 := rfl

lemma det4_identity : determinant_4x4 identity4 = 1 := by
  simp [determinant_4x4, cofactor_4x4, minor_4x4, determinant_3x3, cofactor_3x3,
    minor_3x3, determinant_2x2, submatrixM, identity4,
    sa4_0_0, sa4_0_1, sa4_0_2, sa4_1_0, sa4_1_1, sa4_1_2, sa4_2_0, sa4_2_1, sa4_2_2,
    sa4_3_0, sa4_3_1, sa4_3_2, sa3_0_0, sa3_0_1, sa3_1_0, sa3_1_1, sa3_2_0, sa3_2_1,
    Fin.ext_iff]

lemma det4_translation (x y z : ℚ) : determinant_4x4 (translation x y z) = 1 := by
  simp [determinant_4x4, cofactor_4x4, minor_4x4, determinant_3x3, cofactor_3x3,
    minor_3x3, determinant_2x2, submatrixM, translation,
    sa4_0_0, sa4_0_1, sa4_0_2, sa4_1_0, sa4_1_1, sa4_1_2, sa4_2_0, sa4_2_1, sa4_2_2,
    sa4_3_0, sa4_3_1, sa4_3_2, sa3_0_0, sa3_0_1, sa3_1_0, sa3_1_1, sa3_2_0, sa3_2_1,
    Matrix.vecHead, Matrix.vecTail]

lemma det4_scaling (x y z : ℚ) : determinant_4x4 (scaling x y z) = x * y * z := by
  simp [determinant_4x4, cofactor_4x4, minor_4x4, determinant_3x3, cofactor_3x3,
    minor_3x3, determinant_2x2, submatrixM, scaling,
    sa4_0_0, sa4_0_1, sa4_0_2, sa4_1_0, sa4_1_1, sa4_1_2, sa4_2_0, sa4_2_1, sa4_2_2,
    sa4_3_0, sa4_3_1, sa4_3_2, sa3_0_0, sa3_0_1, sa3_1_0, sa3_1_1, sa3_2_0, sa3_2_1]
  ring

lemma inverse_4x4_identity : inverse_4x4 identity4 = .ok identity4 := by
  rw [inverse_4x4, if_pos]
  · congr 1
    ext i j
    fin_cases i <;> fin_cases j <;>
      simp only [inverseEntries, det4_identity, div_one] <;>
      simp [cofactor_4x4, minor_4x4, determinant_3x3,
        cofactor_3x3, minor_3x3, determinant_2x2, submatrixM, identity4,
        sa4_0_0, sa4_0_1, sa4_0_2, sa4_1_0, sa4_1_1, sa4_1_2, sa4_2_0, sa4_2_1, sa4_2_2,
        sa4_3_0, sa4_3_1, sa4_3_2, sa3_0_0, sa3_0_1, sa3_1_0, sa3_1_1, sa3_2_0, sa3_2_1,
        v4_0, v4_1, v4_2, v4_3, v3_0, v3_1, v3_2, Fin.ext_iff]
  · simp [is_invertible_4x4, det4_identity]

lemma inverse_4x4_translation (x y z : ℚ) :
    inverse_4x4 (translation x y z) = .ok (translation (-x) (-y) (-z)) := by
  rw [inverse_4x4, if_pos]
  · congr 1
    ext i j
    fin_cases i <;> fin_cases j <;>
      simp only [inverseEntries, det4_translation, div_one] <;>
      simp [cofactor_4x4, minor_4x4, determinant_3x3,
        cofactor_3x3, minor_3x3, determinant_2x2, submatrixM, translation,
        sa4_0_0, sa4_0_1, sa4_0_2, sa4_1_0, sa4_1_1, sa4_1_2, sa4_2_0, sa4_2_1, sa4_2_2,
        sa4_3_0, sa4_3_1, sa4_3_2, sa3_0_0, sa3_0_1, sa3_1_0, sa3_1_1, sa3_2_0, sa3_2_1,
        v4_0, v4_1, v4_2, v4_3, v3_0, v3_1, v3_2,
        Matrix.vecHead, Matrix.vecTail, Fin.ext_iff]
  · simp [is_invertible_4x4, det4_translation]

lemma ofRat_get_w (w : Identifier) : Identifier.ofRat ((w.value : ℚ)) = w := by
  cases w <;> simp [Identifier.ofRat, Identifier.value]

lemma mulTuple_identity4 (t : Tuple) : mulTuple identity4 t = t := by
  obtain ⟨x, y, z, w⟩ := t
  simp [mulTuple, identity4, Fin.sum_univ_four, Fin.ext_iff, Tuple.get_w,
    v4_0, v4_1, v4_2, v4_3]
  exact ofRat_get_w w

lemma mulTuple_translation_point (x y z a b c : ℚ) :
    mulTuple (translation x y z) (Tuple.point a b c) = Tuple.point (a + x) (b + y) (c + z) := by
  simp [mulTuple, translation, Tuple.point, Tuple.get_w, Identifier.value,
    Fin.sum_univ_four, Matrix.vecHead, Matrix.vecTail, Tuple.mk.injEq, Identifier.ofRat,
    v4_0, v4_1, v4_2, v4_3]

lemma mulTuple_translation_vector (x y z a b c : ℚ) :
    mulTuple (translation x y z) (Tuple.vector a b c) = Tuple.vector a b c := by
  simp [mulTuple, translation, Tuple.vector, Tuple.get_w, Identifier.value,
    Fin.sum_univ_four, Matrix.vecHead, Matrix.vecTail, Tuple.mk.injEq, Identifier.ofRat,
    v4_0, v4_1, v4_2, v4_3]

lemma hitGo_spec (xs : List Intersection) (cur : ℚ) (res : Option Intersection) :
    (match hitGo xs res cur with
     | none => res = none ∧ ∀ i ∈ xs, ¬(i.t < cur ∧ 0 < i.t)
     | some h =>
         (h ∈ xs ∧ 0 < h.t ∧ h.t < cur ∧
           ∀ i ∈ xs, (i.t < cur ∧ 0 < i.t) → h.t ≤ i.t)
       ∨ (res = some h ∧ ∀ i ∈ xs, ¬(i.t < cur ∧ 0 < i.t))) := by
  induction xs generalizing cur res with
  | nil =>
    cases res with
    | none => exact ⟨rfl, by simp⟩
    | some h => exact Or.inr ⟨rfl, by simp⟩
  | cons i rest ih =>
    by_cases hcond : i.t < cur ∧ 0 < i.t
    · have hstep : hitGo (i :: rest) res cur = hitGo rest (some i) i.t := by
        simp [hitGo, hcond]
      rw [hstep]
      have := ih i.t (some i)
      cases hgo : hitGo rest (some i) i.t with
      | none =>
        rw [hgo] at this
        exact absurd this.1 (by simp)
      | some h =>
        rw [hgo] at this
        rcases this with ⟨hmem, hpos, hlt, hmin⟩ | ⟨heq, hnone⟩
        · refine Or.inl ⟨List.mem_cons_of_mem i hmem, hpos, lt_trans hlt hcond.1, ?_⟩
          intro j hj hjc
          rcases List.mem_cons.mp hj with rfl | hjr
          · exact le_of_lt hlt
          · by_cases hji : j.t < i.t
            · exact hmin j hjr ⟨hji, hjc.2⟩
            · exact le_trans (le_of_lt hlt) (not_lt.mp hji)
        · have hh : h = i := by injection heq with h2; exact h2.symm
          subst hh
          refine Or.inl ⟨List.mem_cons_self h rest, hcond.2, hcond.1, ?_⟩
          intro j hj hjc
          rcases List.mem_cons.mp hj with rfl | hjr
          · exact le_refl _
          · by_cases hji : j.t < h.t
            · exact absurd ⟨hji, hjc.2⟩ (hnone j hjr)
            · exact not_lt.mp hji
    · have hstep : hitGo (i :: rest) res cur = hitGo rest res cur := by
        simp [hitGo, hcond]
      rw [hstep]
      have := ih cur res
      cases hgo : hitGo rest res cur with
      | none =>
        rw [hgo] at this
        refine ⟨this.1, ?_⟩
        intro j hj
        rcases List.mem_cons.mp hj with rfl | hjr
        · exact hcond
        · exact this.2 j hjr
      | some h =>
        rw [hgo] at this
        rcases this with ⟨hmem, hpos, hlt, hmin⟩ | ⟨heq, hnone⟩
        · refine Or.inl ⟨List.mem_cons_of_mem i hmem, hpos, hlt, ?_⟩
          intro j hj hjc
          rcases List.mem_cons.mp hj with rfl | hjr
          · exact absurd hjc hcond
          · exact hmin j hjr hjc
        · refine Or.inr ⟨heq, ?_⟩
          intro j hj
          rcases List.mem_cons.mp hj with rfl | hjr
          · exact hcond
          · exact hnone j hjr

/-- C1 counterexample: the list containing the single intersection at
t = f64::MAX has a strictly positive t, yet hit returns None, because
the running minimum is seeded with f64::MAX and compared strictly. -/
theorem claim_C1_counterexample : (∃ i ∈ xsMax, 0 < i.t) ∧ hit xsMax = none := by
  constructor
  · refine ⟨⟨f64MAX, s0⟩, by simp [xsMax], ?_⟩
    show (0:ℚ) < f64MAX
    norm_num [f64MAX]
  · simp [hit, xsMax, hitGo, lt_irrefl]

/-- C1 (amended): for every list of intersections whose t values are
all strictly below f64::MAX, hit returns the intersection with the
smallest strictly-positive t, and None exactly when every t is ≤ 0 (or
the list is empty). -/
theorem claim_C1 (xs : List Intersection) (hbound : ∀ i ∈ xs, i.t < f64MAX) :
    (match hit xs with
     | none => ∀ i ∈ xs, i.t ≤ 0
     | some h => h ∈ xs ∧ 0 < h.t ∧ ∀ i ∈ xs, 0 < i.t → h.t ≤ i.t) := by
  have hspec := hitGo_spec xs f64MAX none
  rw [hit]
  cases hgo : hitGo xs none f64MAX with
  | none =>
    rw [hgo] at hspec
    intro i hi
    by_contra hpos
    exact hspec.2 i hi ⟨hbound i hi, lt_of_not_le hpos⟩
  | some h =>
    rw [hgo] at hspec
    rcases hspec with ⟨hmem, hpos, _, hmin⟩ | ⟨heq, _⟩
    · exact ⟨hmem, hpos, fun i hi hip => hmin i hi ⟨hbound i hi, hip⟩⟩
    · exact absurd heq (by simp)

/-- C1 witness: the amended theorem applied to the two-element list
with t values 2 and 1. -/
theorem claim_C1_witness :
    (∀ i ∈ ([⟨2, s0⟩, ⟨1, s0⟩] : List Intersection), i.t < f64MAX) ∧
    (match hit [⟨2, s0⟩, ⟨1, s0⟩] with
     | none => ∀ i ∈ ([⟨2, s0⟩, ⟨1, s0⟩] : List Intersection), i.t ≤ 0
     | some h => h ∈ ([⟨2, s0⟩, ⟨1, s0⟩] : List Intersection) ∧ 0 < h.t ∧
         ∀ i ∈ ([⟨2, s0⟩, ⟨1, s0⟩] : List Intersection), 0 < i.t → h.t ≤ i.t) := by
  have hbound : ∀ i ∈ ([⟨2, s0⟩, ⟨1, s0⟩] : List Intersection), i.t < f64MAX := by
    intro i hi
    rcases List.mem_cons.mp hi with rfl | hi2
    · show (2:ℚ) < f64MAX
      norm_num [f64MAX]
    rcases List.mem_cons.mp hi2 with rfl | hi3
    · show (1:ℚ) < f64MAX
      norm_num [f64MAX]
    · simp at hi3
  exact ⟨hbound, claim_C1 _ hbound⟩

/-- C3: reflected_color is exactly black when the remaining depth is 0
or the material's reflective coefficient is 0; refracted_color is
exactly black when the remaining depth is 0, the transparency is 0, or
total internal reflection occurs (sin^2 of the refraction angle
computed from n1/n2 and the eye-normal angle exceeds 1). -/
theorem claim_C3 (w : World) (comps : Computations) (rem : ℕ) :
    ((rem = 0 ∨ comps.object.get_material.reflective = 0) →
      w.reflected_color_helper comps rem = .ok Color.black) ∧
    ((rem = 0 ∨ comps.object.get_material.transparency = 0 ∨ 1 < sin2T comps) →
      w.refracted_color comps rem = .ok Color.black) := by
  constructor
  · intro h
    rw [World.reflected_color_helper, reflectedStep, if_pos h]
    rfl
  · intro h
    rw [World.refracted_color, refractedStep]
    rcases h with h | h | h
    · rw [if_pos (Or.inl h)]; rfl
    · rw [if_pos (Or.inr h)]; rfl
    · by_cases h0 : rem = 0 ∨ comps.object.get_material.transparency = 0
      · rw [if_pos h0]; rfl
      · rw [if_neg h0, if_pos]
        · rfl
        · exact h

/-- C3 witness: at depth 0 both contributions are black for a concrete
world and computations record. -/
theorem claim_C3_witness :
    (⟨none, []⟩ : World).reflected_color_helper compsW 0 = .ok Color.black ∧
    (⟨none, []⟩ : World).refracted_color compsW 0 = .ok Color.black :=
  ⟨(claim_C3 ⟨none, []⟩ compsW 0).1 (Or.inl rfl),
   (claim_C3 ⟨none, []⟩ compsW 0).2 (Or.inl rfl)⟩

lemma reflectedStep_isSome (w : World) (comps : Computations) (rem : ℕ)
    (recur : Ray → ℕ → Option (Except String Color))
    (h : rem ≠ 0 → ∀ r, (recur r (rem - 1)).isSome = true) :
    (reflectedStep w comps rem recur).isSome = true := by
  rw [reflectedStep]
  split
  · rfl
  · rename_i hc
    have hrem : rem ≠ 0 := fun h0 => hc (Or.inl h0)
    split
    · rfl
    · rename_i ray hray
      cases hr : recur ray (rem - 1) with
      | none =>
        have := h hrem ray
        rw [hr] at this
        simp at this
      | some c => cases c <;> simp [hr]

lemma refractedStep_isSome (w : World) (comps : Computations) (rem : ℕ)
    (recur : Ray → ℕ → Option (Except String Color))
    (h : rem ≠ 0 → ∀ r, (recur r (rem - 1)).isSome = true) :
    (refractedStep w comps rem recur).isSome = true := by
  rw [refractedStep]
  split
  · rfl
  · rename_i hc
    have hrem : rem ≠ 0 := fun h0 => hc (Or.inl h0)
    dsimp only
    split
    · rfl
    · split
      · rfl
      · rename_i ray hray
        cases hr : recur ray (rem - 1) with
        | none =>
          have := h hrem ray
          rw [hr] at this
          simp at this
        | some c => cases c <;> simp [hr]

lemma shadeHitStep_isSome (w : World) (comps : Computations) (rem : ℕ)
    (recur : Ray → ℕ → Option (Except String Color))
    (h : rem ≠ 0 → ∀ r, (recur r (rem - 1)).isSome = true) :
    (shadeHitStep w comps rem recur).isSome = true := by
  rw [shadeHitStep]
  split
  · rfl
  · split
    · rfl
    · split
      · rfl
      · have hrefl := reflectedStep_isSome w comps rem recur h
        cases hre : reflectedStep w comps rem recur with
        | none => rw [hre] at hrefl; simp at hrefl
        | some c =>
          cases c with
          | error e => simp [hre]
          | ok cr =>
            have hrefr := refractedStep_isSome w comps rem recur h
            cases hra : refractedStep w comps rem recur with
            | none => rw [hra] at hrefr; simp at hrefr
            | some c2 => cases c2 <;> simp [hre, hra]

/-- C4: the light-transport recursion always terminates within its
remaining-depth budget: any fuel exceeding the remaining depth makes
the fuel-indexed color resolution return a value (so the recursive call
tree is finite and bounded by the depth cap, for every world and ray,
including mutually reflective parallel planes); the default color_at is
the depth-5 run of that bounded recursion, and at depth 0 the
reflected and refracted contributions are exactly black. -/
theorem claim_C4 :
    (∀ (fuel : ℕ) (w : World) (r : Ray) (rem : ℕ), rem < fuel →
      (colorAtFuel fuel w r rem).isSome = true) ∧
    (∀ (w : World) (r : Ray), colorAtFuel 6 w r 5 = some (w.color_at r)) ∧
    (∀ (w : World) (comps : Computations),
      w.reflected_color_helper comps 0 = .ok Color.black ∧
      w.refracted_color comps 0 = .ok Color.black) := by
  have main : ∀ (fuel : ℕ) (w : World) (r : Ray) (rem : ℕ), rem < fuel →
      (colorAtFuel fuel w r rem).isSome = true := by
    intro fuel
    induction fuel with
    | zero => intro w r rem h; exact absurd h (Nat.not_lt_zero rem)
    | succ f ih =>
      intro w r rem hrem
      rw [colorAtFuel]
      split
      · rfl
      · split
        · rfl
        · split
          · rfl
          · apply shadeHitStep_isSome
            intro hne r2
            apply ih
            omega
  refine ⟨main, ?_, ?_⟩
  · intro w r
    have h5 := main 6 w r 5 (by omega)
    cases hc : colorAtFuel 6 w r 5 with
    | none => rw [hc] at h5; simp at h5
    | some c =>
      rw [World.color_at, World.color_at_helper]
      rw [show (5 + 1) = 6 from rfl, hc]
      rfl
  · intro w comps
    exact ⟨(claim_C3 w comps 0).1 (Or.inl rfl), (claim_C3 w comps 0).2 (Or.inl rfl)⟩

/-- C4 witness: the bounded recursion applied at the scene of two
parallel fully-reflective planes facing each other with a ray bouncing
between them, at the default depth 5. -/
theorem claim_C4_witness :
    (5 : ℕ) < 6 ∧ (colorAtFuel 6 worldC4 rayC4 5).isSome = true :=
  ⟨by omega, claim_C4.1 6 worldC4 rayC4 5 (by omega)⟩

/-- C10 counterexample: a position built as point + point carries the
Invalid discriminant, so it is not a point, yet PointLight::new accepts
it, because the constructor only rejects vectors. -/
theorem claim_C10_counterexample :
    ((Tuple.point 0 0 0).add (Tuple.point 0 0 0)).is_a_point = false ∧
    PointLight.new ((Tuple.point 0 0 0).add (Tuple.point 0 0 0)) Color.white =
      .ok ⟨Color.white, (Tuple.point 0 0 0).add (Tuple.point 0 0 0)⟩ :=
  ⟨rfl, rfl⟩

/-- C10 (amended): Ray::new errors exactly when the origin is not a
point or the direction is not a vector, and on success stores the
inputs unchanged; PointLight::new errors exactly when the position is a
vector (an Invalid tuple is accepted even though it is not a point),
and on success stores the inputs unchanged. Both failures are explicit
error values. -/
theorem claim_C10 :
    (∀ o d, (∃ r, Ray.new o d = .ok r) ↔
      (o.is_a_point = true ∧ d.is_a_vector = true)) ∧
    (∀ o d r, Ray.new o d = .ok r → r.origin = o ∧ r.direction = d) ∧
    (∀ p c, (∃ l, PointLight.new p c = .ok l) ↔ p.is_a_vector = false) ∧
    (∀ p c l, PointLight.new p c = .ok l → l.position = p ∧ l.intensity = c) := by
  refine ⟨?_, ?_, ?_, ?_⟩
  · intro o d
    rw [Ray.new, Ray.validate]
    by_cases h : o.is_a_point && d.is_a_vector
    · simp only [h, if_true]
      simp only [Bool.and_eq_true] at h
      exact ⟨fun _ => h, fun _ => ⟨⟨o, d⟩, rfl⟩⟩
    · simp only [h, if_false]
      simp only [Bool.and_eq_true] at h
      constructor
      · rintro ⟨r, hr⟩
        cases hr
      · intro hc
        exact absurd hc h
  · intro o d r hr
    rw [Ray.new] at hr
    by_cases h : Ray.validate o d
    · rw [if_pos h] at hr
      injection hr with hr
      exact ⟨congrArg Ray.origin hr.symm, congrArg Ray.direction hr.symm⟩
    · rw [if_neg h] at hr
      cases hr
  · intro p c
    rw [PointLight.new]
    by_cases h : p.is_a_vector
    · simp only [h, if_true]
      constructor
      · rintro ⟨l, hl⟩
        cases hl
      · intro hc
        simp [h] at hc
    · rw [if_neg h]
      have hfalse : p.is_a_vector = false := by
        cases hb : p.is_a_vector
        · rfl
        · exact absurd hb h
      exact ⟨fun _ => hfalse, fun _ => ⟨⟨c, p⟩, rfl⟩⟩
  · intro p c l hl
    rw [PointLight.new] at hl
    by_cases h : p.is_a_vector
    · rw [if_pos h] at hl
      cases hl
    · rw [if_neg h] at hl
      injection hl with hl
      exact ⟨congrArg PointLight.position hl.symm, congrArg PointLight.intensity hl.symm⟩

/-- C10 witness: the success cases applied to concrete valid inputs. -/
theorem claim_C10_witness :
    ((⟨Tuple.point 1 2 3, Tuple.vector 4 5 6⟩ : Ray).origin = Tuple.point 1 2 3 ∧
     (⟨Tuple.point 1 2 3, Tuple.vector 4 5 6⟩ : Ray).direction = Tuple.vector 4 5 6) ∧
    ((⟨Color.white, Tuple.point 7 8 9⟩ : PointLight).position = Tuple.point 7 8 9 ∧
     (⟨Color.white, Tuple.point 7 8 9⟩ : PointLight).intensity = Color.white) :=
  ⟨claim_C10.2.1 (Tuple.point 1 2 3) (Tuple.vector 4 5 6) _ rfl,
   claim_C10.2.2.2 (Tuple.point 7 8 9) Color.white _ rfl⟩

/-- C7 counterexample: the diagonal matrix with entries (1/8192, 1, 1, 1)
has determinant 1/8192, within EPSILON = 2e-4 of zero, yet inverse_4x4
succeeds, because the invertibility check compares the determinant with
exactly 0.0. -/
theorem claim_C7_counterexample :
    |determinant_4x4 matC7 - 0| < EPSILON ∧ determinant_4x4 matC7 ≠ 0 ∧
    ∃ n, inverse_4x4 matC7 = .ok n := by
  have hdet : determinant_4x4 matC7 = 1/8192 := by
    rw [matC7, det4_scaling]; norm_num
  refine ⟨?_, by rw [hdet]; norm_num, ?_⟩
  · rw [hdet, sub_zero, abs_of_pos (by norm_num)]
    norm_num [EPSILON]
  refine ⟨inverseEntries matC7, ?_⟩
  rw [inverse_4x4, if_pos]
  simp [is_invertible_4x4, hdet]

/-- C7 (amended): inverse_4x4 fails exactly when the determinant is
exactly 0.0; the zero test is not epsilon-bounded, so matrices with a
nonzero determinant within EPSILON of zero are still inverted. -/
theorem claim_C7 (m : Mat 4 4) :
    (inverse_4x4 m = .error "Matrix is not invertible" ↔ determinant_4x4 m = 0) ∧
    ((∃ n, inverse_4x4 m = .ok n) ↔ determinant_4x4 m ≠ 0) := by
  rw [inverse_4x4]
  by_cases hd : determinant_4x4 m = 0
  · rw [if_neg (by simp [is_invertible_4x4, hd])]
    constructor
    · exact ⟨fun _ => hd, fun _ => rfl⟩
    · constructor
      · rintro ⟨n, hn⟩
        cases hn
      · intro h
        exact absurd hd h
  · rw [if_pos (by simp [is_invertible_4x4, hd])]
    constructor
    · constructor
      · intro h
        cases h
      · intro h
        exact absurd h hd
    · exact ⟨fun _ => hd, fun _ => ⟨_, rfl⟩⟩

lemma sqrtQ_100 : sqrtQ 100 = 10 := by
  have h : (100 : ℚ) = 10 ^ 2 := by norm_num
  rw [h, sqrtQ_sq 10 (by norm_num)]

lemma powfQ_one (b : ℚ) (hb : b.den = 1 ∧ 0 ≤ b.num) : powfQ 1 b = 1 := by
  rw [powfQ, if_pos hb, one_pow]

/-- C5: the ambient term of the Phong lighting function is returned
alone (and unconditionally computed) whenever in_shadow is true, for
every material, light, point and pair of eye/normal vectors; and at the
concrete configuration of the spec (default material, white point light
at (0,0,-10), shaded point at the origin, eye and normal both
(0,0,-1)), lighting returns (1.9, 1.9, 1.9) unshadowed and
(0.1, 0.1, 0.1) in shadow. -/
theorem claim_C5 :
    (∀ (m : Material) (pl : PointLight) (pos eyev normalv : Tuple),
      lighting m pl pos eyev normalv true =
        (m.get_color.mul pl.intensity).mulScalar m.ambient) ∧
    lighting Material.default ⟨Color.white, Tuple.point 0 0 (-10)⟩ (Tuple.point 0 0 0)
      (Tuple.vector 0 0 (-1)) (Tuple.vector 0 0 (-1)) false = ⟨19/10, 19/10, 19/10⟩ ∧
    lighting Material.default ⟨Color.white, Tuple.point 0 0 (-10)⟩ (Tuple.point 0 0 0)
      (Tuple.vector 0 0 (-1)) (Tuple.vector 0 0 (-1)) true = ⟨1/10, 1/10, 1/10⟩ := by
  have hsub : (Tuple.point 0 0 (-10)).sub (Tuple.point 0 0 0) = Tuple.vector 0 0 (-10) := by
    rw [point_sub_point]
    norm_num
  have hnorm : (Tuple.vector 0 0 (-10)).normalize = Tuple.vector 0 0 (-1) := by
    rw [normalize_vector 0 0 (-10) 10 (by norm_num; exact sqrtQ_100)]
    norm_num
  have hpow : powfQ 1 (200 : ℚ) = 1 := by
    apply powfQ_one
    constructor
    · exact Rat.den_ofNat 200
    · rw [Rat.num_ofNat]
      norm_num
  refine ⟨fun m pl pos eyev normalv => rfl, ?_, ?_⟩
  · rw [lighting]
    simp only [hsub, hnorm]
    rw [Material.default, Material.get_color]
    simp only [vector_dot_vector, vector_mulScalar, reflect_vectors, Color.mul, Color.mulScalar,
      Color.add, Color.white, Color.black]
    norm_num [hpow]
  · rw [lighting]
    simp only [hsub, hnorm]
    rw [Material.default, Material.get_color]
    simp only [vector_dot_vector, vector_mulScalar, reflect_vectors, Color.mul, Color.mulScalar,
      Color.add, Color.white, Color.black]
    norm_num

lemma bind_ok {α β : Type} (a : α) (f : α → Except String β) :
    (Except.ok a >>= f) = f a := rfl

lemma bind_error {α β : Type} (e : String) (f : α → Except String β) :
    ((Except.error e : Except String α) >>= f) = .error e := rfl

lemma sqrtQ_4 : sqrtQ 4 = 2 := by
  have h : (4 : ℚ) = 2 ^ 2 := by norm_num
  rw [h, sqrtQ_sq 2 (by norm_num)]

lemma sphere_intersect_eq_shape_intersect (s : Sphere) (r : Ray) :
    Sphere.intersect s r = Shape.intersect (.sphere s) r := by
  rw [Sphere.intersect, Shape.intersect]
  simp only [Shape.get_transform]
  cases hinv : inverse_4x4 s.transform_matrix with
  | error e => rw [bind_error, bind_error]
  | ok m =>
    rw [bind_ok, bind_ok]
    cases htr : transform_ray r m with
    | error e => rw [bind_error, bind_error]
    | ok tr =>
      rw [bind_ok, bind_ok]
      rw [Shape.local_intersect, sphereLocalIntersect]
      dsimp only
      split <;> rfl

lemma shape_intersect_sphere_unit : Shape.intersect s0 rayC6 = .ok [⟨4, s0⟩, ⟨6, s0⟩] := by
  rw [Shape.intersect]
  have hinv : inverse_4x4 (s0.get_transform) = .ok identity4 := by
    rw [s0, Shape.get_transform, sphereD]
    exact inverse_4x4_identity
  rw [hinv, bind_ok]
  have htr : transform_ray rayC6 identity4 = .ok rayC6 := by
    rw [transform_ray, rayC6, mulTuple_identity4, mulTuple_identity4]
    rfl
  rw [htr, bind_ok, s0, Shape.local_intersect, sphereLocalIntersect, rayC6]
  rw [point_sub_point]
  norm_num
  rw [vector_dot_vector, vector_dot_vector, vector_dot_vector]
  norm_num
  rw [sqrtQ_4]
  norm_num [sphereD, s0]

lemma shape_intersect_sphere_translated :
    Shape.intersect (.sphere sphereT) rayC6 = .ok [] := by
  rw [Shape.intersect]
  have hinv : inverse_4x4 ((Shape.sphere sphereT).get_transform) =
      .ok (translation (-5) 0 0) := by
    rw [Shape.get_transform, sphereT]
    exact inverse_4x4_translation 5 0 0
  rw [hinv, bind_ok]
  have htr : transform_ray rayC6 (translation (-5) 0 0) =
      .ok ⟨Tuple.point (-5) 0 (-5), Tuple.vector 0 0 1⟩ := by
    rw [transform_ray, rayC6, mulTuple_translation_point, mulTuple_translation_vector]
    norm_num
    rfl
  rw [htr, bind_ok, Shape.local_intersect, sphereLocalIntersect]
  rw [point_sub_point]
  norm_num
  rw [vector_dot_vector, vector_dot_vector, vector_dot_vector]
  norm_num

/-- C6: for every shape, world-space intersection is the local
intersection of the ray transformed by the inverse of the shape's
transform (both for the trait composition and for the inherent
Sphere::intersect, which inlines the same pipeline); concretely, the
ray (origin (0,0,-5), direction (0,0,1)) meets the default unit sphere
at t = 4 and t = 6 and misses the sphere translated by (5,0,0). -/
theorem claim_C6 :
    (∀ (sh : Shape) (r : Ray), Shape.intersect sh r =
      (inverse_4x4 sh.get_transform).bind fun inv =>
        (transform_ray r inv).bind fun tr => sh.local_intersect tr) ∧
    (∀ (s : Sphere) (r : Ray), Sphere.intersect s r = Shape.intersect (.sphere s) r) ∧
    Shape.intersect s0 rayC6 = .ok [⟨4, s0⟩, ⟨6, s0⟩] ∧
    Shape.intersect (.sphere sphereT) rayC6 = .ok [] :=
  ⟨fun _sh _r => rfl, sphere_intersect_eq_shape_intersect, shape_intersect_sphere_unit,
   shape_intersect_sphere_translated⟩

lemma multiply_eq_hmul {m n p : ℕ} (a : Mat m n) (b : Mat n p) : multiply a b = a * b := by
  ext i j
  rw [Matrix.mul_apply]
  rfl

lemma identity4_eq_one : identity4 = (1 : Mat 4 4) := by
  ext i j
  rw [identity4, Matrix.one_apply]

lemma det3_eq (m : Mat 3 3) : determinant_3x3 m = m.det := by
  rw [Matrix.det_fin_three]
  simp [determinant_3x3, cofactor_3x3, minor_3x3, determinant_2x2, submatrixM,
    sa3_0_0, sa3_0_1, sa3_1_0, sa3_1_1, sa3_2_0, sa3_2_1, v3_0, v3_1, v3_2]
  ring

lemma det4_eq (m : Mat 4 4) : determinant_4x4 m = m.det := by
  rw [Matrix.det_succ_row_zero, Fin.sum_univ_four]
  have hsub : ∀ c : Fin 4,
      determinant_3x3 (submatrixM m 0 c) = (m.submatrix Fin.succ c.succAbove).det := by
    intro c
    rw [det3_eq]
    congr 1
  simp only [determinant_4x4, cofactor_4x4, minor_4x4, hsub, v4_0, v4_1, v4_2, v4_3]
  norm_num

lemma fin4_cases (i : Fin 4) : i = 0 ∨ i = 1 ∨ i = 2 ∨ i = 3 := by
  fin_cases i
  · exact Or.inl rfl
  · exact Or.inr (Or.inl rfl)
  · exact Or.inr (Or.inr (Or.inl rfl))
  · exact Or.inr (Or.inr (Or.inr rfl))

set_option maxHeartbeats 2000000 in
lemma laplace_diag (m : Mat 4 4) (i : Fin 4) :
    (∑ k, m i k * cofactor_4x4 m i k) = determinant_4x4 m := by
  rcases fin4_cases i with rfl | rfl | rfl | rfl <;>
  · simp only [Fin.sum_univ_four, determinant_4x4, cofactor_4x4, minor_4x4, determinant_3x3,
      cofactor_3x3, minor_3x3, determinant_2x2, submatrixM,
      sa4_0_0, sa4_0_1, sa4_0_2, sa4_1_0, sa4_1_1, sa4_1_2, sa4_2_0, sa4_2_1, sa4_2_2,
      sa4_3_0, sa4_3_1, sa4_3_2, sa3_0_0, sa3_0_1, sa3_1_0, sa3_1_1, sa3_2_0, sa3_2_1,
      v4_0, v4_1, v4_2, v4_3, v3_0, v3_1, v3_2]
    try norm_num
    try ring

set_option maxHeartbeats 2000000 in
lemma laplace_off (m : Mat 4 4) (i j : Fin 4) (h : i ≠ j) :
    (∑ k, m i k * cofactor_4x4 m j k) = 0 := by
  rcases fin4_cases i with rfl | rfl | rfl | rfl <;>
      rcases fin4_cases j with rfl | rfl | rfl | rfl <;>
    first
    | exact absurd rfl h
    | (simp only [Fin.sum_univ_four, determinant_4x4, cofactor_4x4, minor_4x4, determinant_3x3,
        cofactor_3x3, minor_3x3, determinant_2x2, submatrixM,
        sa4_0_0, sa4_0_1, sa4_0_2, sa4_1_0, sa4_1_1, sa4_1_2, sa4_2_0, sa4_2_1, sa4_2_2,
        sa4_3_0, sa4_3_1, sa4_3_2, sa3_0_0, sa3_0_1, sa3_1_0, sa3_1_1, sa3_2_0, sa3_2_1,
        v4_0, v4_1, v4_2, v4_3, v3_0, v3_1, v3_2]
       try norm_num
       try ring)

lemma matApproxEq_refl (a : Mat 4 4) : matApproxEq a a = true := by
  rw [matApproxEq, decide_eq_true_eq]
  intro i j
  rw [float_equals, decide_eq_true_eq, sub_self, abs_zero]
  norm_num [EPSILON]

lemma mul_inverseEntries (m : Mat 4 4) (h : determinant_4x4 m ≠ 0) :
    multiply m (inverseEntries m) = identity4 := by
  ext i j
  show (∑ k, m i k * inverseEntries m k j) = identity4 i j
  have hstep : ∀ k, m i k * inverseEntries m k j =
      m i k * cofactor_4x4 m j k * (determinant_4x4 m)⁻¹ := by
    intro k
    rw [inverseEntries, div_eq_mul_inv]
    ring
  rw [Finset.sum_congr rfl (fun k _ => hstep k), ← Finset.sum_mul]
  by_cases hij : i = j
  · subst hij
    rw [laplace_diag m i, mul_inv_cancel₀ h, identity4, if_pos rfl]
  · rw [laplace_off m i j hij, zero_mul, identity4, if_neg hij]

lemma inverseEntries_eq_inv (m : Mat 4 4) (h : determinant_4x4 m ≠ 0) :
    inverseEntries m = m⁻¹ := by
  have hmul : m * inverseEntries m = 1 := by
    rw [← multiply_eq_hmul, mul_inverseEntries m h, identity4_eq_one]
  exact (Matrix.inv_eq_right_inv hmul).symm

/-- C8: whenever inverse_4x4 succeeds, the result is a two-sided
inverse (inverse(M) * M and M * inverse(M) both equal the identity
within the epsilon equality of Matrix's PartialEq; in fact exactly),
and inverting the inverse succeeds and returns M again (within
epsilon; in fact exactly). -/
theorem claim_C8 (m n : Mat 4 4) (h : inverse_4x4 m = .ok n) :
    matApproxEq (multiply n m) identity4 = true ∧
    matApproxEq (multiply m n) identity4 = true ∧
    ∃ n2, inverse_4x4 n = .ok n2 ∧ matApproxEq n2 m = true := by
  rw [inverse_4x4] at h
  by_cases hd : is_invertible_4x4 m
  case neg => rw [if_neg hd] at h; cases h
  rw [if_pos hd] at h
  injection h with h
  subst h
  have hdet : determinant_4x4 m ≠ 0 := by
    have := hd
    rw [is_invertible_4x4, decide_eq_true_eq] at this
    exact this
  have hdetM : IsUnit (Matrix.det m) :=
    isUnit_iff_ne_zero.mpr (by rw [← det4_eq]; exact hdet)
  have hinv : inverseEntries m = m⁻¹ := inverseEntries_eq_inv m hdet
  have hdetInv : determinant_4x4 (inverseEntries m) ≠ 0 := by
    rw [hinv, det4_eq, Matrix.det_nonsing_inv, Ring.inverse_eq_inv']
    exact inv_ne_zero (by rw [← det4_eq]; exact hdet)
  refine ⟨?_, ?_, ?_⟩
  · have : multiply (inverseEntries m) m = identity4 := by
      rw [multiply_eq_hmul, hinv, identity4_eq_one]
      exact Matrix.nonsing_inv_mul m hdetM
    rw [this]
    exact matApproxEq_refl identity4
  · have : multiply m (inverseEntries m) = identity4 := mul_inverseEntries m hdet
    rw [this]
    exact matApproxEq_refl identity4
  · refine ⟨inverseEntries (inverseEntries m), ?_, ?_⟩
    · rw [inverse_4x4, if_pos]
      rw [is_invertible_4x4, decide_eq_true_eq]
      exact hdetInv
    · have h2 : inverseEntries (inverseEntries m) = m := by
        rw [inverseEntries_eq_inv (inverseEntries m) hdetInv, hinv]
        exact Matrix.nonsing_inv_nonsing_inv m hdetM
      rw [h2]
      exact matApproxEq_refl m

/-- C8 witness: the theorem applied to the translation by (1,2,3),
whose inverse_4x4 is the translation by (-1,-2,-3). -/
theorem claim_C8_witness :
    matApproxEq (multiply (translation (-1) (-2) (-3)) (translation 1 2 3)) identity4 = true ∧
    matApproxEq (multiply (translation 1 2 3) (translation (-1) (-2) (-3))) identity4 = true ∧
    ∃ n2, inverse_4x4 (translation (-1) (-2) (-3)) = .ok n2 ∧
      matApproxEq n2 (translation 1 2 3) = true :=
  claim_C8 (translation 1 2 3) (translation (-1) (-2) (-3)) (inverse_4x4_translation 1 2 3)

lemma float_equals_refl (a : ℚ) : float_equals a a = true := by
  rw [float_equals, decide_eq_true_eq, sub_self, abs_zero]
  norm_num [EPSILON]

lemma materialApproxEq_refl (m : Material) : Material.approxEq m m = true := by
  rw [Material.approxEq]
  simp [float_equals_refl]

lemma shape_beq_refl (s : Shape) : s.beq s = true := by
  cases s with
  | sphere a => simp [Shape.beq]
  | plane p => simp [Shape.beq, matApproxEq_refl, materialApproxEq_refl]

lemma sameIdentity_of_beq (s t : Shape) (h : s.beq t = true) : sameIdentity s t = true := by
  cases s <;> cases t <;> simp_all [Shape.beq, sameIdentity]

lemma beq_eq_sameIdentity_of_WF (U : List Shape)
    (hWF : ∀ s ∈ U, ∀ t ∈ U, sameIdentity s t = true → s = t)
    (s t : Shape) (hs : s ∈ U) (ht : t ∈ U) : s.beq t = sameIdentity s t := by
  cases hid : sameIdentity s t with
  | true =>
    have := hWF s hs t ht hid
    subst this
    exact shape_beq_refl s
  | false =>
    cases hbeq : s.beq t with
    | true => rw [sameIdentity_of_beq s t hbeq] at hid; cases hid
    | false => rfl

lemma any_congr_of_mem {l : List Shape} {f g : Shape → Bool}
    (h : ∀ a ∈ l, f a = g a) : l.any f = l.any g := by
  induction l with
  | nil => rfl
  | cons a rest ih =>
    simp only [List.any_cons, h a (List.mem_cons_self a rest)]
    rw [ih (fun b hb => h b (List.mem_cons_of_mem a hb))]

lemma filter_congr_of_mem {l : List Shape} {f g : Shape → Bool}
    (h : ∀ a ∈ l, f a = g a) : l.filter f = l.filter g := by
  induction l with
  | nil => rfl
  | cons a rest ih =>
    simp only [List.filter_cons, h a (List.mem_cons_self a rest)]
    rw [ih (fun b hb => h b (List.mem_cons_of_mem a hb))]

lemma toggleObject_eq_toggleSpec (U : List Shape)
    (hWF : ∀ s ∈ U, ∀ t ∈ U, sameIdentity s t = true → s = t)
    (stack : List Shape) (hstack : ∀ o ∈ stack, o ∈ U)
    (s : Shape) (hsU : s ∈ U) :
    toggleObject stack s = toggleSpec stack s := by
  rw [toggleObject, toggleSpec]
  have hpt : ∀ o ∈ stack, (Shape.beq o s) = sameIdentity o s := fun o ho =>
    beq_eq_sameIdentity_of_WF U hWF o s (hstack o ho) hsU
  rw [any_congr_of_mem hpt]
  rw [filter_congr_of_mem (fun o ho => by rw [hpt o ho])]

lemma toggleObject_mem_of_mem (U : List Shape) (stack : List Shape)
    (hstack : ∀ o ∈ stack, o ∈ U) (s : Shape) (hsU : s ∈ U) :
    ∀ o ∈ toggleObject stack s, o ∈ U := by
  rw [toggleObject]
  intro o ho
  by_cases hc : stack.any (fun o2 => o2.beq s) = true
  · rw [if_pos hc] at ho
    exact hstack o (List.mem_of_mem_filter ho)
  · rw [if_neg hc] at ho
    rcases List.mem_append.mp ho with hm | hm
    · exact hstack o hm
    · rw [List.mem_singleton.mp hm]
      exact hsU

lemma n1n2Go_eq_spec (x : Intersection) (U : List Shape)
    (hWF : ∀ s ∈ U, ∀ t ∈ U, sameIdentity s t = true → s = t)
    (hxU : x.object ∈ U) :
    ∀ (l : List Intersection) (stack : List Shape),
      (∀ i ∈ l, i.object ∈ U) → (∀ o ∈ stack, o ∈ U) →
      n1n2Go x l stack = n1n2SpecGo x l stack := by
  intro l
  induction l with
  | nil => intro stack _ _; rfl
  | cons i rest ih =>
    intro stack hl hstack
    have hiU : i.object ∈ U := hl i (List.mem_cons_self i rest)
    rw [n1n2Go, n1n2SpecGo]
    cases hbeq : i.beq x with
    | true =>
      simp only [if_pos]
      have hobj : i.object = x.object := by
        rw [Intersection.beq, Bool.and_eq_true, decide_eq_true_eq] at hbeq
        exact hWF i.object hiU x.object hxU (sameIdentity_of_beq _ _ hbeq.2)
      rw [toggleObject_eq_toggleSpec U hWF stack hstack i.object hiU, hobj]
    | false =>
      simp only [Bool.false_eq_true, if_false]
      rw [toggleObject_eq_toggleSpec U hWF stack hstack i.object hiU]
      exact ih (toggleSpec stack i.object)
        (fun j hj => hl j (List.mem_cons_of_mem i hj))
        (by
          rw [← toggleObject_eq_toggleSpec U hWF stack hstack i.object hiU]
          exact toggleObject_mem_of_mem U stack hstack i.object hiU)

/-- C2: under the uniqueness-token discipline (shapes appearing in the
list that share an identity token are the same shape, as Uuid
uniqueness guarantees in the source), calculate_n1_n2 is exactly the
spec's replay: walk the sorted list up to the hit maintaining a stack
of currently-entered shapes, pushing a shape not on the stack and
removing one already there by identity, n1 being the refractive index
of the stack top just before the hit (1.0 if empty) and n2 the top
after toggling the hit's shape (1.0 if empty). Moreover the removal is
genuinely by identity and not by value: a sphere sharing the token of
the stacked sphere is removed no matter how its other fields differ,
and one with a fresh token is pushed. -/
theorem claim_C2 :
    (∀ (xs : List Intersection) (x : Intersection),
      (∀ s ∈ x.object :: xs.map Intersection.object,
        ∀ t ∈ x.object :: xs.map Intersection.object,
        sameIdentity s t = true → s = t) →
      calculate_n1_n2 xs x = calculateN1N2Spec xs x) ∧
    (∀ (a b : Sphere), a.uid = b.uid →
      toggleObject [.sphere a] (.sphere b) = []) ∧
    (∀ (a b : Sphere), a.uid ≠ b.uid →
      toggleObject [.sphere a] (.sphere b) = [.sphere a, .sphere b]) := by
  refine ⟨?_, ?_, ?_⟩
  · intro xs x hWF
    rw [calculate_n1_n2, calculateN1N2Spec]
    refine n1n2Go_eq_spec x (x.object :: xs.map Intersection.object) hWF
      (List.mem_cons_self _ _) xs []
      (fun i hi => List.mem_cons_of_mem _ (List.mem_map_of_mem Intersection.object hi))
      (by intro o ho; cases ho)
  · intro a b hab
    simp [toggleObject, Shape.beq, hab]
  · intro a b hab
    simp [toggleObject, Shape.beq, hab]

/-- C2 witness: the equivalence applied to the six ordered
intersections of the overlapping glass-spheres scene, at the fourth
hit. -/
theorem claim_C2_witness :
    calculate_n1_n2 xsC2 ⟨19/4, .sphere sphereB⟩ =
      calculateN1N2Spec xsC2 ⟨19/4, .sphere sphereB⟩ := by
  apply claim_C2.1
  intro s hs t ht h
  have h3 : ∀ u ∈ (⟨19/4, Shape.sphere sphereB⟩ : Intersection).object ::
      xsC2.map Intersection.object,
      u = .sphere sphereA ∨ u = .sphere sphereB ∨ u = .sphere sphereC := by
    intro u hu
    simp only [xsC2, List.map_cons, List.map_nil, List.mem_cons, List.not_mem_nil,
      or_false] at hu
    tauto
  rcases h3 s hs with rfl | rfl | rfl <;> rcases h3 t ht with rfl | rfl | rfl <;>
    first
    | rfl
    | (exfalso
       simp [sameIdentity, sphereA, sphereB, sphereC] at h)

lemma sqrtQ_1 : sqrtQ 1 = 1 := by
  have h := sqrtQ_sq 1 (by norm_num)
  rwa [show ((1:ℚ)^2) = 1 by norm_num] at h

lemma ray_new_pv (a b c d e f : ℚ) :
    Ray.new (Tuple.point a b c) (Tuple.vector d e f) =
      .ok ⟨Tuple.point a b c, Tuple.vector d e f⟩ := rfl

lemma lt_f64MAX (q : ℚ) (h : q ≤ 10) : q < f64MAX := by
  refine lt_of_le_of_lt h ?_
  rw [f64MAX]
  norm_num

lemma mulTuple_transposeT_vector (x y z a b c : ℚ) :
    (mulTuple (transposeM (translation x y z)) (Tuple.vector a b c)).convert_to_vector =
      Tuple.vector a b c := by
  simp [mulTuple, transposeM, translation, Tuple.vector, Tuple.get_w, Identifier.value,
    Tuple.convert_to_vector, Fin.sum_univ_four, Matrix.vecHead, Matrix.vecTail,
    Tuple.mk.injEq, v4_0, v4_1, v4_2, v4_3]

lemma camC9_rfp_00 : camC9.ray_for_pixel 0 0 = .ok rayP00 := by
  rw [Camera.ray_for_pixel]
  simp only [camC9]
  rw [inverse_4x4_identity, bind_ok, bind_ok, mulTuple_identity4, mulTuple_identity4]
  rw [point_sub_point]
  norm_num
  rw [normalize_vector 2 2 (-1) 3
    (by rw [show (2:ℚ)^2 + (2:ℚ)^2 + ((-1:ℚ))^2 = 3^2 by norm_num, sqrtQ_sq 3 (by norm_num)])]
  norm_num
  rw [rayP00, ray_new_pv]
  norm_num [Ray.mk.injEq, Tuple.vector, Tuple.mk.injEq]

lemma camC9_rfp_11 : camC9.ray_for_pixel 1 1 = .ok rayP11 := by
  rw [Camera.ray_for_pixel]
  simp only [camC9]
  rw [inverse_4x4_identity, bind_ok, bind_ok, mulTuple_identity4, mulTuple_identity4]
  rw [point_sub_point]
  norm_num
  rw [normalize_vector (4/7) (4/7) (-1) (9/7)
    (by rw [show ((4/7:ℚ))^2 + ((4/7:ℚ))^2 + ((-1:ℚ))^2 = (9/7)^2 by norm_num,
      sqrtQ_sq (9/7) (by norm_num)])]
  norm_num
  rw [rayP11, ray_new_pv]
  norm_num [Ray.mk.injEq, Tuple.vector, Tuple.mk.injEq]
lemma pure_eq_ok {α : Type} (a : α) : (pure a : Except String α) = .ok a := rfl

lemma sC9_inverse : inverse_4x4 ((Shape.sphere sphereC9).get_transform) =
    .ok (translation (-4) (-4) 7) := by
  rw [Shape.get_transform, sphereC9, inverse_4x4_translation]
  norm_num

lemma sC9_intersect_11 :
    Shape.intersect (.sphere sphereC9) rayP11 =
      .ok [⟨8, .sphere sphereC9⟩, ⟨10, .sphere sphereC9⟩] := by
  rw [Shape.intersect, sC9_inverse, bind_ok]
  have htr : transform_ray rayP11 (translation (-4) (-4) 7) =
      .ok ⟨Tuple.point (-4) (-4) 7, Tuple.vector (4/9) (4/9) (-7/9)⟩ := by
    rw [transform_ray, rayP11, mulTuple_translation_point, mulTuple_translation_vector]
    norm_num
    rw [ray_new_pv]
  rw [htr, bind_ok, Shape.local_intersect, sphereLocalIntersect]
  rw [point_sub_point]
  norm_num
  rw [vector_dot_vector, vector_dot_vector, vector_dot_vector]
  norm_num
  rw [sqrtQ_4]
  norm_num

lemma sC9_intersect_00 : Shape.intersect (.sphere sphereC9) rayP00 = .ok [] := by
  rw [Shape.intersect, sC9_inverse, bind_ok]
  have htr : transform_ray rayP00 (translation (-4) (-4) 7) =
      .ok ⟨Tuple.point (-4) (-4) 7, Tuple.vector (2/3) (2/3) (-1/3)⟩ := by
    rw [transform_ray, rayP00, mulTuple_translation_point, mulTuple_translation_vector]
    norm_num
    rw [ray_new_pv]
  rw [htr, bind_ok, Shape.local_intersect, sphereLocalIntersect]
  rw [point_sub_point]
  norm_num
  rw [vector_dot_vector, vector_dot_vector, vector_dot_vector]
  norm_num

lemma worldC9_iw_11 : worldC9.intersect_world rayP11 =
    .ok [⟨8, .sphere sphereC9⟩, ⟨10, .sphere sphereC9⟩] := by
  rw [World.intersect_world]
  have hobj : worldC9.objects = [.sphere sphereC9] := rfl
  rw [hobj]
  simp only [List.foldlM]
  rw [sC9_intersect_11, bind_ok, pure_eq_ok, bind_ok, pure_eq_ok, bind_ok, pure_eq_ok]
  simp only [List.nil_append]
  simp only [List.insertionSort, List.orderedInsert]
  norm_num

lemma worldC9_iw_00 : worldC9.intersect_world rayP00 = .ok [] := by
  rw [World.intersect_world]
  have hobj : worldC9.objects = [.sphere sphereC9] := rfl
  rw [hobj]
  simp only [List.foldlM]
  rw [sC9_intersect_00, bind_ok, pure_eq_ok, bind_ok, pure_eq_ok, bind_ok, pure_eq_ok]
  simp only [List.append_nil]
  rfl

lemma hit_C9_11 : hit [⟨8, .sphere sphereC9⟩, ⟨10, .sphere sphereC9⟩] =
    some ⟨8, .sphere sphereC9⟩ := by
  rw [hit, hitGo, if_pos ⟨lt_f64MAX 8 (by norm_num), by norm_num⟩, hitGo,
    if_neg (by norm_num), hitGo]
lemma sC9_normal : Shape.normal_at (.sphere sphereC9) (Tuple.point (32/9) (32/9) (-(56/9))) =
    .ok (Tuple.vector (-(4/9)) (-(4/9)) (7/9)) := by
  rw [Shape.normal_at, sC9_inverse, bind_ok]
  rw [mulTuple_translation_point]
  norm_num
  rw [Shape.local_normal_at]
  rw [point_sub_point]
  norm_num
  rw [bind_ok]
  rw [mulTuple_transposeT_vector]
  rw [normalize_vector (-(4/9)) (-(4/9)) (7/9) 1
    (by rw [show (-(4/9):ℚ)^2 + (-(4/9):ℚ)^2 + ((7/9):ℚ)^2 = 1^2 by norm_num,
      sqrtQ_sq 1 (by norm_num)])]
  norm_num

lemma beq_C9_self : Intersection.beq ⟨8, .sphere sphereC9⟩ ⟨8, .sphere sphereC9⟩ = true := by
  rw [Intersection.beq]
  simp [shape_beq_refl]

lemma toggle_C9 : toggleObject [] (.sphere sphereC9) = [.sphere sphereC9] := by
  rw [toggleObject]
  simp

lemma n1n2_C9 : calculate_n1_n2 [⟨8, .sphere sphereC9⟩, ⟨10, .sphere sphereC9⟩]
    ⟨8, .sphere sphereC9⟩ = (1, 1) := by
  rw [calculate_n1_n2, n1n2Go, if_pos beq_C9_self, toggle_C9]
  rfl

lemma prep_C9 : Computations.prepare ⟨8, .sphere sphereC9⟩ rayP11
    [⟨8, .sphere sphereC9⟩, ⟨10, .sphere sphereC9⟩] = .ok compsC9 := by
  have hpos : rayP11.position 8 = Tuple.point (32/9) (32/9) (-(56/9)) := by
    rw [rayP11, Ray.position]
    dsimp only
    rw [vector_mulScalar, point_add_vector]
    norm_num
  rw [Computations.prepare]
  rw [hpos, sC9_normal, bind_ok]
  simp only [rayP11]
  have hcond : ¬((Tuple.vector (-(4/9)) (-(4/9)) (7/9)).dot
      (Tuple.vector (4/9) (4/9) (-7/9)).neg < 0) := by
    rw [neg_vector, vector_dot_vector]
    norm_num
  simp only [if_neg hcond, decide_eq_false hcond]
  simp only [n1n2_C9]
  simp only [neg_vector, vector_mulScalar, point_add_vector, point_sub_vector,
    reflect_vectors]
  rw [compsC9, pure_eq_ok]
  simp only [Except.ok.injEq, Computations.mk.injEq, Tuple.point, Tuple.vector,
    Tuple.mk.injEq, EPSILON]
  norm_num
lemma shadowRay_intersect :
    Shape.intersect (.sphere sphereC9)
      ⟨Tuple.point (13333/3750) (13333/3750) (-(93331/15000)),
       Tuple.vector (-(4/9)) (-(4/9)) (7/9)⟩ =
      .ok [⟨-(10001/5000), .sphere sphereC9⟩, ⟨-(1/5000), .sphere sphereC9⟩] := by
  rw [Shape.intersect, sC9_inverse, bind_ok]
  have htr : transform_ray
      (⟨Tuple.point (13333/3750) (13333/3750) (-(93331/15000)),
        Tuple.vector (-(4/9)) (-(4/9)) (7/9)⟩ : Ray) (translation (-4) (-4) 7) =
      .ok ⟨Tuple.point (-(1667/3750)) (-(1667/3750)) (11669/15000),
           Tuple.vector (-(4/9)) (-(4/9)) (7/9)⟩ := by
    rw [transform_ray, mulTuple_translation_point, mulTuple_translation_vector]
    norm_num
    rw [ray_new_pv]
  rw [htr, bind_ok, Shape.local_intersect, sphereLocalIntersect]
  rw [point_sub_point]
  norm_num
  rw [vector_dot_vector, vector_dot_vector, vector_dot_vector]
  norm_num
  rw [sqrtQ_4]
  norm_num

lemma worldC9_iw_shadow : worldC9.intersect_world
    ⟨Tuple.point (13333/3750) (13333/3750) (-(93331/15000)),
     Tuple.vector (-(4/9)) (-(4/9)) (7/9)⟩ =
    .ok [⟨-(10001/5000), .sphere sphereC9⟩, ⟨-(1/5000), .sphere sphereC9⟩] := by
  rw [World.intersect_world]
  have hobj : worldC9.objects = [.sphere sphereC9] := rfl
  rw [hobj]
  simp only [List.foldlM]
  rw [shadowRay_intersect, bind_ok, pure_eq_ok, bind_ok, pure_eq_ok, bind_ok, pure_eq_ok]
  simp only [List.nil_append]
  simp only [List.insertionSort, List.orderedInsert]
  norm_num

lemma hit_shadow_none : hit [⟨-(10001/5000), .sphere sphereC9⟩,
    ⟨-(1/5000), .sphere sphereC9⟩] = none := by
  rw [hit, hitGo, if_neg (by norm_num), hitGo, if_neg (by norm_num), hitGo]

lemma shadow_C9 : worldC9.is_shadowed
    (Tuple.point (13333/3750) (13333/3750) (-93331/15000)) = .ok false := by
  have hlight : worldC9.light = some ⟨Color.white, Tuple.point 0 0 0⟩ := rfl
  rw [World.is_shadowed, hlight]
  dsimp only
  have hmag : sqrtQ ((-(13333/3750):ℚ)^2 + (-(13333/3750):ℚ)^2 + ((93331/15000):ℚ)^2) =
      39999/5000 := by
    rw [show (-(13333/3750):ℚ)^2 + (-(13333/3750):ℚ)^2 + ((93331/15000):ℚ)^2 =
      (39999/5000)^2 by norm_num, sqrtQ_sq (39999/5000) (by norm_num)]
  rw [point_sub_point]
  norm_num
  rw [normalize_vector (-(13333/3750)) (-(13333/3750)) (93331/15000) (39999/5000) hmag]
  norm_num
  rw [ray_new_pv, bind_ok, worldC9_iw_shadow, bind_ok, hit_shadow_none]
  rfl

lemma pat_C9 : pattern_at_object matRed.pattern (.sphere sphereC9)
    (Tuple.point (32/9) (32/9) (-56/9)) = .ok Color.redC := by
  rw [show matRed.pattern = PatternType.solid ⟨Color.redC, identity4⟩ from rfl]
  rw [pattern_at_object, sC9_inverse, bind_ok]
  rw [show (PatternType.solid ⟨Color.redC, identity4⟩).get_transform = identity4 from rfl]
  rw [inverse_4x4_identity, bind_ok]
  rfl

lemma light_C9 : lightingAtObject matRed (.sphere sphereC9)
    ⟨Color.white, Tuple.point 0 0 0⟩ (Tuple.point (32/9) (32/9) (-56/9))
    (Tuple.vector (-4/9) (-4/9) (7/9)) (Tuple.vector (-4/9) (-4/9) (7/9)) false =
    .ok Color.redC := by
  have hpow : powfQ 1 (200 : ℚ) = 1 := by
    apply powfQ_one
    constructor
    · exact Rat.den_ofNat 200
    · rw [Rat.num_ofNat]
      norm_num
  have hmag8 : sqrtQ ((-(32/9):ℚ)^2 + (-(32/9):ℚ)^2 + ((56/9):ℚ)^2) = 8 := by
    rw [show (-(32/9):ℚ)^2 + (-(32/9):ℚ)^2 + ((56/9):ℚ)^2 = 8^2 by norm_num,
      sqrtQ_sq 8 (by norm_num)]
  rw [lightingAtObject, pat_C9, bind_ok]
  rw [point_sub_point]
  norm_num
  rw [normalize_vector (-(32/9)) (-(32/9)) (56/9) 8 hmag8]
  norm_num
  simp only [matRed, Material.default]
  simp only [vector_dot_vector, vector_mulScalar, reflect_vectors, Color.mul,
    Color.mulScalar, Color.add, Color.white, Color.black, Color.redC]
  norm_num [hpow]
  rfl
lemma colorAtFuel_succ (fuel : ℕ) (w : World) (r : Ray) (rem : ℕ) :
    colorAtFuel (fuel + 1) w r rem =
      match w.intersect_world r with
      | .error e => some (.error e)
      | .ok xs =>
        match hit xs with
        | none => some (.ok Color.black)
        | some h =>
          match Computations.prepare h r xs with
          | .error e => some (.error e)
          | .ok comps => shadeHitStep w comps rem (colorAtFuel fuel w) := rfl

lemma shadeHitStep_eval (w : World) (comps : Computations) (rem : ℕ)
    (recur : Ray → ℕ → Option (Except String Color)) (light : PointLight)
    (shadowed : Bool) (surface rc fc : Color)
    (hw : w.light = some light)
    (hsh : w.is_shadowed comps.over_point = .ok shadowed)
    (hli : lightingAtObject comps.object.get_material comps.object light comps.point
      comps.eyev comps.normalv shadowed = .ok surface)
    (hre : reflectedStep w comps rem recur = some (.ok rc))
    (hrf : refractedStep w comps rem recur = some (.ok fc)) :
    shadeHitStep w comps rem recur = some (.ok ((surface.add rc).add fc)) := by
  rw [shadeHitStep, hw]
  dsimp only
  rw [hsh]
  dsimp only
  rw [hli]
  dsimp only
  rw [hre]
  dsimp only
  rw [hrf]

lemma color_C9_11 : worldC9.color_at rayP11 = .ok Color.redC := by
  have hlight : worldC9.light = some ⟨Color.white, Tuple.point 0 0 0⟩ := rfl
  have hover : compsC9.over_point =
      Tuple.point (13333/3750) (13333/3750) (-93331/15000) := rfl
  have hobj9 : compsC9.object = Shape.sphere sphereC9 := rfl
  have hgm : (Shape.sphere sphereC9).get_material = matRed := rfl
  have hpt : compsC9.point = Tuple.point (32/9) (32/9) (-56/9) := rfl
  have hey : compsC9.eyev = Tuple.vector (-4/9) (-4/9) (7/9) := rfl
  have hnv : compsC9.normalv = Tuple.vector (-4/9) (-4/9) (7/9) := rfl
  have hsh : worldC9.is_shadowed compsC9.over_point = .ok false := by
    rw [hover]
    exact shadow_C9
  have hli : lightingAtObject compsC9.object.get_material compsC9.object
      ⟨Color.white, Tuple.point 0 0 0⟩ compsC9.point compsC9.eyev compsC9.normalv false =
      .ok Color.redC := by
    rw [hobj9, hgm, hpt, hey, hnv]
    exact light_C9
  have hre : reflectedStep worldC9 compsC9 5 (colorAtFuel 5 worldC9) =
      some (.ok Color.black) := by
    rw [reflectedStep,
      if_pos (Or.inr (show compsC9.object.get_material.reflective = 0 from rfl))]
  have hrf : refractedStep worldC9 compsC9 5 (colorAtFuel 5 worldC9) =
      some (.ok Color.black) := by
    rw [refractedStep,
      if_pos (Or.inr (show compsC9.object.get_material.transparency = 0 from rfl))]
  have hshade := shadeHitStep_eval worldC9 compsC9 5 (colorAtFuel 5 worldC9)
    ⟨Color.white, Tuple.point 0 0 0⟩ false Color.redC Color.black Color.black
    hlight hsh hli hre hrf
  have hcol : (Color.redC.add Color.black).add Color.black = Color.redC := by
    simp only [Color.add, Color.redC, Color.black, Color.mk.injEq]
    norm_num
  rw [hcol] at hshade
  rw [World.color_at, World.color_at_helper, colorAtFuel_succ]
  rw [worldC9_iw_11]
  dsimp only
  rw [hit_C9_11]
  dsimp only
  rw [prep_C9]
  dsimp only
  rw [hshade]
  rfl

lemma except_bind_ok {α β : Type} (a : α) (f : α → Except String β) :
    (Except.ok a).bind f = f a := rfl

lemma color_C9_00 : worldC9.color_at rayP00 = .ok Color.black := by
  rw [World.color_at, World.color_at_helper, colorAtFuel_succ]
  rw [worldC9_iw_00]
  rfl

lemma render_C9 : camC9.render worldC9 = .ok canvasC9 := by
  rw [Camera.render]
  have hv : camC9.vsize = 2 := rfl
  have hh : camC9.hsize = 2 := rfl
  rw [hv, hh]
  simp only [show (2 - 1 : ℕ) = 1 from rfl, show List.range 1 = [0] from rfl]
  simp only [List.foldlM]
  rw [camC9_rfp_00, bind_ok, color_C9_00, bind_ok]
  rfl

/-- C9: the claim says Camera::render computes a ray and writes a
resolved color for EVERY pixel (x, y) with 0 <= x < hsize and
0 <= y < vsize. The source loops run y in 0..(vsize - 1) and x in
0..(hsize - 1), stopping one short of each bound, so the last row and
last column are never rendered: for the 2 x 2 camera camC9 over the
scene worldC9, render succeeds and only pixel (0, 0) is computed, pixel
(1, 1) keeps the canvas default black, yet its own ray resolves to red.
This refutes the claim and exhibits the off-by-one bug. -/
theorem claim_C9 :
    camC9.render worldC9 = .ok canvasC9 ∧
    canvasC9.pixel_at 1 1 = .ok Color.black ∧
    (camC9.ray_for_pixel 1 1).bind worldC9.color_at = .ok Color.redC ∧
    Color.redC ≠ Color.black := by
  refine ⟨render_C9, rfl, ?_, ?_⟩
  · rw [camC9_rfp_11, except_bind_ok, color_C9_11]
  · intro h
    have : (1 : ℚ) = 0 := congrArg Color.red h
    norm_num at this

end RT
